import Mathlib

/-!
# Verification of the RRV source analyzer and graph layout engine

This file gives a shallow embedding, in Lean 4, of the core of the RRV
repository: the source analyzer (`src/shared/libs/mapping/mapping.ts`),
the graph builder (`buildGraph`, the file defining
`buildGraphFromMappingResult`) and the recursive element-tree row packer
(`layoutSubtree` in `src/entities/RenderGraphSvg.tsx`), together with
theorems about those embeddings.

Conventions of the embedding:
* Babel AST nodes are modelled by one closed inductive type `Node`; the
  TypeScript code inspects nodes with `t.isX(...)` checks, which become
  pattern matches, and every unhandled node kind falls into a default
  "ignore" arm exactly as in the source.
* JavaScript `Set` accumulation followed by `Array.from` is modelled by
  `dedupFirst` (keep the first occurrence, preserve insertion order).
* Template-literal ids such as `` `hook-${n}` `` are modelled by `String`
  concatenation with `natStr` (decimal numerals, as JS number-to-string).
* The Babel parser itself is an external collaborator; `mapping` is
  parameterised by a `parse : String → Except String (List Node)`
  function so that its exception behaviour can be stated faithfully.
-/

namespace RRV

/-! ## Generic helpers -/

/-- Decimal digit character for `n < 10` (JS number formatting). -/
def digitChar (n : Nat) : Char := Char.ofNat (48 + n)

/-- Decimal numeral with explicit recursion fuel (kept structural so
that terms reduce inside the kernel). -/
def natDigitsAux : Nat → Nat → List Char
  | 0, _ => []
  | fuel + 1, n =>
    if n < 10 then [digitChar n]
    else natDigitsAux fuel (n / 10) ++ [digitChar (n % 10)]

/-- Decimal numeral of a natural number, as a character list
(the JS `${n}` conversion for a nonnegative integer). -/
def natDigits (n : Nat) : List Char := natDigitsAux (n + 1) n

/-- Decimal numeral of a natural number, as a string. -/
def natStr (n : Nat) : String := ⟨natDigits n⟩

/-- Numeric value of a digit list (left inverse of `natDigits`). -/
def digitsVal (l : List Char) : Nat :=
  l.foldl (fun a c => a * 10 + (c.toNat - 48)) 0

theorem digitsVal_append (l : List Char) (c : Char) :
    digitsVal (l ++ [c]) = digitsVal l * 10 + (c.toNat - 48) := by
  simp [digitsVal]

theorem digitChar_toNat (n : Nat) (h : n < 10) : (digitChar n).toNat = 48 + n := by
  interval_cases n <;> decide

theorem natDigitsAux_fuel (fuel n : Nat) (h : n < fuel) :
    natDigitsAux fuel n = natDigitsAux (n + 1) n := by
  induction fuel using Nat.strong_induction_on generalizing n with
  | _ fuel ih =>
    match fuel with
    | 0 => omega
    | f + 1 =>
      by_cases h10 : n < 10
      · simp [natDigitsAux, h10]
      · have hn : 0 < n := by omega
        have hdiv : n / 10 < n := Nat.div_lt_self hn (by omega)
        rw [natDigitsAux, if_neg h10]
        conv_rhs => rw [natDigitsAux]
        rw [if_neg h10]
        rw [ih f (by omega) (n / 10) (by omega),
          ih n (by omega) (n / 10) (by omega)]

theorem digitsVal_natDigits (n : Nat) : digitsVal (natDigits n) = n := by
  induction n using Nat.strong_induction_on with
  | _ n ih =>
    unfold natDigits natDigitsAux
    by_cases h : n < 10
    · simp [h, digitsVal, digitChar_toNat n h]
    · have hn : 0 < n := by omega
      have hdiv : n / 10 < n := Nat.div_lt_self hn (by omega)
      rw [if_neg h, natDigitsAux_fuel n (n / 10) (by omega)]
      have := ih (n / 10) hdiv
      unfold natDigits at this
      rw [digitsVal_append, this, digitChar_toNat (n % 10) (Nat.mod_lt _ (by omega))]
      omega

theorem natDigits_injective : Function.Injective natDigits := by
  intro a b h
  have := digitsVal_natDigits a
  rw [h, digitsVal_natDigits] at this
  omega

theorem natStr_injective : Function.Injective natStr := by
  intro a b h
  exact natDigits_injective (congrArg String.data h)

theorem digitChar_isDigit (n : Nat) (h : n < 10) : (digitChar n).isDigit = true := by
  interval_cases n <;> decide

theorem natDigits_all_digit (n : Nat) : ∀ c ∈ natDigits n, c.isDigit = true := by
  induction n using Nat.strong_induction_on with
  | _ n ih =>
    unfold natDigits natDigitsAux
    by_cases h : n < 10
    · simp [h]
      exact digitChar_isDigit n h
    · have hn : 0 < n := by omega
      have hdiv : n / 10 < n := Nat.div_lt_self hn (by omega)
      rw [if_neg h, natDigitsAux_fuel n (n / 10) (by omega)]
      intro c hc
      rcases List.mem_append.1 hc with h1 | h2
      · exact ih (n / 10) hdiv c h1
      · simp at h2
        subst h2
        exact digitChar_isDigit (n % 10) (Nat.mod_lt _ (by omega))

theorem natDigits_ne_nil (n : Nat) : natDigits n ≠ [] := by
  unfold natDigits natDigitsAux
  by_cases h : n < 10 <;> simp [h]

/-- First-occurrence deduplication: the JS idiom
`Array.from(new Set(xs))`, which keeps insertion order. -/
def dedupFirst [DecidableEq α] (l : List α) : List α :=
  l.foldl (fun acc x => if x ∈ acc then acc else acc ++ [x]) []

theorem dedupFirst_nodup_aux [DecidableEq α] (l acc : List α) (h : acc.Nodup) :
    (l.foldl (fun acc x => if x ∈ acc then acc else acc ++ [x]) acc).Nodup := by
  induction l generalizing acc with
  | nil => exact h
  | cons x xs ih =>
    simp only [List.foldl_cons]
    by_cases hx : x ∈ acc
    · simp only [hx, if_true]
      exact ih acc h
    · simp only [hx, if_false]
      exact ih (acc ++ [x]) (by simp [List.nodup_append, h, hx])

theorem dedupFirst_nodup [DecidableEq α] (l : List α) : (dedupFirst l).Nodup :=
  dedupFirst_nodup_aux l [] List.nodup_nil

/-- JS `String.prototype.startsWith` (kept on character lists so that
terms reduce inside the kernel). -/
def strStartsWith (s pre : String) : Bool :=
  pre.data.isPrefixOf s.data

/-- JS `String.prototype.endsWith`. -/
def strEndsWith (s suf : String) : Bool :=
  suf.data.reverse.isPrefixOf s.data.reverse

/-- JS `String.prototype.toLowerCase` (ASCII, which covers hook
names). -/
def strToLower (s : String) : String :=
  ⟨s.data.map Char.toLower⟩

/-- Contiguous-substring test on character lists. -/
def isSubstring (sub : List Char) : List Char → Bool
  | [] => sub.isEmpty
  | c :: t => sub.isPrefixOf (c :: t) || isSubstring sub t

/-- JS `String.prototype.includes` (substring test). -/
def strIncludes (s sub : String) : Bool :=
  isSubstring sub.data s.data

/-- JS truthiness of a `string | null | undefined` value:
`null`/`undefined` and the empty string are falsy. -/
def truthyOpt : Option String → Bool
  | none => false
  | some s => !s.data.isEmpty

/-- JS `Set.prototype.add`: append if not already present. -/
def addSet (l : List String) (x : String) : List String :=
  if l.contains x then l else l ++ [x]

/-! ## The fact-model data types (`declare namespace Mapping`) -/

/-- A source position (`{ line, column }`). -/
structure Loc where
  line : Nat
  column : Nat
deriving DecidableEq, Repr

/-- `Mapping.HookKind`.  `reactQuery` stands for the string literal
`"react-query"`. -/
inductive HookKind where
  | useState | useRef | useReducer | useEffect | useLayoutEffect
  | useCallback | useMemo | zustand | reactQuery | custom
deriving DecidableEq, Repr

/-- `Mapping.StateScope` (`"local" | "global" | "external"`). -/
inductive StateScope where
  | localScope | globalScope | externalScope
deriving DecidableEq, Repr

/-- `Mapping.AnalyzedHook`.  The free-form `meta` record only ever holds
the `importSource` field in the source, modelled directly. -/
structure AnalyzedHook where
  id : String
  name : String
  hookKind : HookKind
  scope : StateScope
  definedAt : Option Loc
  metaImportSource : Option String
deriving DecidableEq, Repr

/-- `Mapping.EffectDependency`. -/
structure EffectDependency where
  name : String
  isGlobal : Bool
deriving DecidableEq, Repr

/-- `Mapping.AnalyzedEffect` (its `hookKind` is always `useEffect` or
`useLayoutEffect`). -/
structure AnalyzedEffect where
  id : String
  hookKind : HookKind
  dependencies : List EffectDependency
  setters : List String
  refReads : List String
  refWrites : List String
  definedAt : Option Loc
deriving DecidableEq, Repr

/-- `Mapping.AnalyzedCallback`. -/
structure AnalyzedCallback where
  id : String
  name : Option String
  dependencies : List String
  setters : List String
  definedAt : Option Loc
deriving DecidableEq, Repr

/-- `Mapping.AnalyzedJsxNode`. -/
structure AnalyzedJsxNode where
  id : String
  component : String
  depth : Nat
  parentId : Option String
  props : List String
  refProps : List String
  definedAt : Option Loc
deriving DecidableEq, Repr

/-- `Mapping.MappingResult`; the `meta` sub-record is inlined into the
two fields `exportedComponents` and `defaultExport`. -/
structure MappingResult where
  source : String
  fileName : Option String
  componentName : Option String
  hooks : List AnalyzedHook
  effects : List AnalyzedEffect
  callbacks : List AnalyzedCallback
  jsxNodes : List AnalyzedJsxNode
  exportedComponents : List String
  defaultExport : Option String
  errors : List String
  calledVariableNames : List String
deriving DecidableEq, Repr

/-! ## The Babel AST, as one closed tagged union

The analyzer only ever distinguishes the node kinds below (with
`t.isX(...)` checks); every other node kind is inert for it and is
modelled by `Node.other`. -/

/-- JSX tag names (`JSXIdentifier`, `JSXMemberExpression`,
`JSXNamespacedName`). -/
inductive JsxTagName where
  | ident (name : String)
  | member (obj : JsxTagName) (prop : String)
  | namespaced (ns nm : String)
deriving DecidableEq, Repr

/-- AST nodes.  `loc` fields are carried only where the analyzer reads
them (`CallExpression` and the JSX opening element). -/
inductive Node where
  | ident (name : String)
  | call (callee : Node) (args : List Node) (loc : Option Loc)
  | member (obj : Node) (prop : Node)
  | assign (left : Node) (right : Node)
  | arrow (body : Node)
  | fnExpr (body : Node)
  | arrayLit (elems : List (Option Node))
  | lit
  | arrayPat (elems : List (Option Node))
  | objectPat (props : List Node)
  | objProp (value : Node)
  | exprStmt (e : Node)
  | ret (arg : Option Node)
  | block (stmts : List Node)
  | varDecl (decls : List Node)
  | declarator (id : Node) (init : Option Node)
  | funcDecl (id : Option String) (body : Node)
  | exportDefault (decl : Node)
  | exportNamed (decl : Option Node) (specs : List Node)
  | exportSpec (exported : Option String)
  | importDecl (src : String) (locals : List String)
  | jsxElem (tag : JsxTagName) (attrs : List Node) (children : List Node) (loc : Option Loc)
  | jsxAttr (name : String) (value : Option Node)
  | jsxAttrNs
  | jsxSpread (arg : Node)
  | jsxExprContainer (e : Node)
  | jsxFragment (children : List Node)
  | jsxText
  | other

/-- A parsed file is its `program.body` statement list. -/
abbrev Ast := List Node

/-! ## `mapping.ts`: export info, import map, primary component -/

/-- `ExportInfo`. -/
structure ExportInfo where
  defaultExport : Option String
  namedExports : List String
deriving DecidableEq, Repr

/-- One step of the two export visitors of `collectExportedComponents`. -/
def exportStep (info : ExportInfo) : Node → ExportInfo
  | .exportDefault d =>
    match d with
    | .ident s => { info with defaultExport := some s }
    | .funcDecl (some nm) _ => { info with defaultExport := some nm }
    | _ => info
  | .exportNamed decl specs =>
    let fromDecl : List String :=
      match decl with
      | some (.funcDecl (some nm) _) => [nm]
      | _ => []
    let fromSpecs : List String := specs.filterMap fun s =>
      match s with
      | .exportSpec (some nm) => some nm
      | _ => none
    { info with namedExports := info.namedExports ++ fromDecl ++ fromSpecs }
  | _ => info

/-- `collectExportedComponents` (export statements are top-level). -/
def collectExportedComponents (ast : Ast) : ExportInfo :=
  ast.foldl exportStep ⟨none, []⟩

/-- `collectImportMap`: localName ↦ module source, later entries
overriding earlier ones as JS object assignment does. -/
def collectImportMap (ast : Ast) : List (String × String) :=
  ast.foldl (fun map n =>
    match n with
    | .importDecl src locals => map ++ locals.map (fun l => (l, src))
    | _ => map) []

/-- Lookup in the import map (`importMap[localName] ?? null`); the last
assignment for a key wins. -/
def importLookup (map : List (String × String)) (name : String) : Option String :=
  (map.reverse.find? (fun p => p.1 == name)).map (·.2)

/-- The regex replacement `fileName.replace(/\.[^/.]+$/, "")`:
strip a final dot-extension that contains neither `.` nor `/`. -/
def stripExt (fileName : String) : String :=
  let rev := fileName.data.reverse
  let seg := rev.takeWhile (fun c => !(c == '.') && !(c == '/'))
  if seg.length > 0 && rev.get? seg.length == some '.' then
    ⟨fileName.data.take (fileName.data.length - (seg.length + 1))⟩
  else fileName

/-- `pickPrimaryComponent`.  The two `if (x)` truthiness tests on
`string`-or-`null` values are modelled by `truthyOpt`. -/
def pickPrimaryComponent (info : ExportInfo) (fileName : Option String) :
    Option String :=
  if truthyOpt info.defaultExport then info.defaultExport
  else if info.namedExports.length == 1 then info.namedExports.head?
  else
    let viaFile : Option String :=
      if truthyOpt fileName then
        let base := stripExt (fileName.getD "")
        info.namedExports.find? (fun nm => nm == base)
      else none
    match viaFile with
    | some m => some m
    | none => info.namedExports.head?

/-- `classifyHookKind`. -/
def classifyHookKind (calleeName : String) (importSource : Option String) :
    HookKind :=
  if calleeName == "useState" then .useState
  else if calleeName == "useRef" then .useRef
  else if calleeName == "useReducer" then .useReducer
  else if calleeName == "useEffect" then .useEffect
  else if calleeName == "useLayoutEffect" then .useLayoutEffect
  else if calleeName == "useCallback" then .useCallback
  else if calleeName == "useMemo" then .useMemo
  else if strStartsWith calleeName "use" && strEndsWith calleeName "Store" &&
      truthyOpt importSource && strIncludes (importSource.getD "") "zustand" then
    .zustand
  else if truthyOpt importSource &&
      (strIncludes (importSource.getD "") "reactQuery" ||
        strIncludes (importSource.getD "") "@tanstack/react-query") then
    if strIncludes (strToLower calleeName) "mutation" then .reactQuery
    else if strIncludes (strToLower calleeName) "query" then .reactQuery
    else .custom
  else .custom

/-! ## `analyzeEffectCall`: the nested traversal of an effect body

Babel's `path.traverse` visits the strict descendants of a node in
document order (pre-order, fields in declaration order), *without*
visiting the node itself.  `effWalk` visits a node and its descendants;
`effChildren` visits only the descendants and is therefore the faithful
model of `bodyPathNode.traverse({...})`. -/

/-- The `/^set[A-Z]/` test. -/
def isSetterName (s : String) : Bool :=
  match s.data with
  | 's' :: 'e' :: 't' :: c :: _ => c.isUpper
  | _ => false

/-- Accumulators of the effect-body traversal. -/
structure EffectWalkState where
  setters : List String
  refReads : List String
  refWrites : List String
deriving DecidableEq, Repr

/-- The two visitors (`CallExpression`, `MemberExpression`) of the
effect-body traversal, applied to one node.  `asgLeft` is true exactly
when this node is the `left` child of an `AssignmentExpression`
(the `parent.left === innerPath.node` check). -/
def effVisit (n : Node) (asgLeft : Bool) (st : EffectWalkState) :
    EffectWalkState :=
  match n with
  | .call callee _ _ =>
    let st :=
      match callee with
      | .ident nm =>
        if isSetterName nm then { st with setters := st.setters ++ [nm] } else st
      | _ => st
    match callee with
    | .member (.ident objName) (.ident propName) =>
      if propName == "mutate" || propName == "mutateAsync" then
        { st with setters := st.setters ++ [objName ++ "." ++ propName] }
      else st
    | _ => st
  | .member obj _ =>
    match obj with
    | .ident objName =>
      if strEndsWith objName "Ref" then
        if asgLeft then { st with refWrites := st.refWrites ++ [objName] }
        else { st with refReads := st.refReads ++ [objName] }
      else st
    | _ => st
  | _ => st

mutual

/-- Visit a node (both visitors), then its descendants, in document
order. -/
def effWalk (n : Node) (asgLeft : Bool) (st : EffectWalkState) :
    EffectWalkState :=
  let st := effVisit n asgLeft st
  match n with
  | .call callee args _ => effWalkList args (effWalk callee false st)
  | .member obj prop => effWalk prop false (effWalk obj false st)
  | .assign l r => effWalk r false (effWalk l true st)
  | .arrow body => effWalk body false st
  | .fnExpr body => effWalk body false st
  | .arrayLit elems => effWalkOptList elems st
  | .arrayPat elems => effWalkOptList elems st
  | .objectPat props => effWalkList props st
  | .objProp v => effWalk v false st
  | .exprStmt e => effWalk e false st
  | .ret (some e) => effWalk e false st
  | .block stmts => effWalkList stmts st
  | .varDecl ds => effWalkList ds st
  | .declarator id init =>
    let st := effWalk id false st
    match init with
    | some e => effWalk e false st
    | none => st
  | .funcDecl _ body => effWalk body false st
  | .exportDefault d => effWalk d false st
  | .exportNamed (some d) specs => effWalkList specs (effWalk d false st)
  | .exportNamed none specs => effWalkList specs st
  | .jsxElem _ attrs children _ => effWalkList children (effWalkList attrs st)
  | .jsxAttr _ (some v) => effWalk v false st
  | .jsxSpread a => effWalk a false st
  | .jsxExprContainer e => effWalk e false st
  | .jsxFragment children => effWalkList children st
  | _ => st

def effWalkList (l : List Node) (st : EffectWalkState) : EffectWalkState :=
  match l with
  | [] => st
  | x :: xs => effWalkList xs (effWalk x false st)

def effWalkOptList (l : List (Option Node)) (st : EffectWalkState) :
    EffectWalkState :=
  match l with
  | [] => st
  | some x :: xs => effWalkOptList xs (effWalk x false st)
  | none :: xs => effWalkOptList xs st

end

/-- Visit only the strict descendants of a node: the faithful model of
`path.traverse`, which never fires visitors on the node it is invoked
on.  The child enumeration is field order, as in `effWalk`. -/
def effChildren (n : Node) (st : EffectWalkState) : EffectWalkState :=
  match n with
  | .call callee args _ => effWalkList args (effWalk callee false st)
  | .member obj prop => effWalk prop false (effWalk obj false st)
  | .assign l r => effWalk r false (effWalk l true st)
  | .arrow body => effWalk body false st
  | .fnExpr body => effWalk body false st
  | .arrayLit elems => effWalkOptList elems st
  | .arrayPat elems => effWalkOptList elems st
  | .objectPat props => effWalkList props st
  | .objProp v => effWalk v false st
  | .exprStmt e => effWalk e false st
  | .ret (some e) => effWalk e false st
  | .block stmts => effWalkList stmts st
  | .varDecl ds => effWalkList ds st
  | .declarator id init =>
    let st := effWalk id false st
    match init with
    | some e => effWalk e false st
    | none => st
  | .funcDecl _ body => effWalk body false st
  | .exportDefault d => effWalk d false st
  | .exportNamed (some d) specs => effWalkList specs (effWalk d false st)
  | .exportNamed none specs => effWalkList specs st
  | .jsxElem _ attrs children _ => effWalkList children (effWalkList attrs st)
  | .jsxAttr _ (some v) => effWalk v false st
  | .jsxSpread a => effWalk a false st
  | .jsxExprContainer e => effWalk e false st
  | .jsxFragment children => effWalkList children st
  | _ => st

/-- `analyzeEffectCall`, as a function of the effect call's argument
list, its location, the generated id, its kind, and the current
global-state name set. -/
def analyzeEffectCall (args : List Node) (loc : Option Loc)
    (effectId : String) (hookKind : HookKind)
    (globalStateNames : List String) : AnalyzedEffect :=
  let dependencies : List EffectDependency :=
    match args.get? 1 with
    | some (.arrayLit elems) =>
      elems.filterMap fun el =>
        match el with
        | some (.ident nm) => some ⟨nm, globalStateNames.contains nm⟩
        | _ => none
    | _ => []
  let ws : EffectWalkState :=
    match args.get? 0 with
    | some (.arrow body) => effChildren body ⟨[], [], []⟩
    | some (.fnExpr body) => effChildren body ⟨[], [], []⟩
    | _ => ⟨[], [], []⟩
  { id := effectId, hookKind := hookKind, dependencies := dependencies,
    setters := dedupFirst ws.setters, refReads := dedupFirst ws.refReads,
    refWrites := dedupFirst ws.refWrites, definedAt := loc }

/-! ## `analyzeUseCallbackCall`: the nested traversal of a callback body
(only setter calls are collected). -/

/-- The single visitor of the callback-body traversal: a call whose
callee is a `set[A-Z]…` identifier records a setter. -/
def cbVisit (n : Node) (st : List String) : List String :=
  match n with
  | .call (.ident nm) _ _ =>
    if isSetterName nm then st ++ [nm] else st
  | _ => st

mutual

def cbWalk (n : Node) (st : List String) : List String :=
  let st := cbVisit n st
  match n with
  | .call callee args _ => cbWalkList args (cbWalk callee st)
  | .member obj prop => cbWalk prop (cbWalk obj st)
  | .assign l r => cbWalk r (cbWalk l st)
  | .arrow body => cbWalk body st
  | .fnExpr body => cbWalk body st
  | .arrayLit elems => cbWalkOptList elems st
  | .arrayPat elems => cbWalkOptList elems st
  | .objectPat props => cbWalkList props st
  | .objProp v => cbWalk v st
  | .exprStmt e => cbWalk e st
  | .ret (some e) => cbWalk e st
  | .block stmts => cbWalkList stmts st
  | .varDecl ds => cbWalkList ds st
  | .declarator id init =>
    let st := cbWalk id st
    match init with
    | some e => cbWalk e st
    | none => st
  | .funcDecl _ body => cbWalk body st
  | .exportDefault d => cbWalk d st
  | .exportNamed (some d) specs => cbWalkList specs (cbWalk d st)
  | .exportNamed none specs => cbWalkList specs st
  | .jsxElem _ attrs children _ => cbWalkList children (cbWalkList attrs st)
  | .jsxAttr _ (some v) => cbWalk v st
  | .jsxSpread a => cbWalk a st
  | .jsxExprContainer e => cbWalk e st
  | .jsxFragment children => cbWalkList children st
  | _ => st

def cbWalkList (l : List Node) (st : List String) : List String :=
  match l with
  | [] => st
  | x :: xs => cbWalkList xs (cbWalk x st)

def cbWalkOptList (l : List (Option Node)) (st : List String) : List String :=
  match l with
  | [] => st
  | some x :: xs => cbWalkOptList xs (cbWalk x st)
  | none :: xs => cbWalkOptList xs st

end

/-- Strict-descendant traversal for a callback body
(`path.traverse` semantics, as `effChildren`). -/
def cbChildren (n : Node) (st : List String) : List String :=
  match n with
  | .call callee args _ => cbWalkList args (cbWalk callee st)
  | .member obj prop => cbWalk prop (cbWalk obj st)
  | .assign l r => cbWalk r (cbWalk l st)
  | .arrow body => cbWalk body st
  | .fnExpr body => cbWalk body st
  | .arrayLit elems => cbWalkOptList elems st
  | .arrayPat elems => cbWalkOptList elems st
  | .objectPat props => cbWalkList props st
  | .objProp v => cbWalk v st
  | .exprStmt e => cbWalk e st
  | .ret (some e) => cbWalk e st
  | .block stmts => cbWalkList stmts st
  | .varDecl ds => cbWalkList ds st
  | .declarator id init =>
    let st := cbWalk id st
    match init with
    | some e => cbWalk e st
    | none => st
  | .funcDecl _ body => cbWalk body st
  | .exportDefault d => cbWalk d st
  | .exportNamed (some d) specs => cbWalkList specs (cbWalk d st)
  | .exportNamed none specs => cbWalkList specs st
  | .jsxElem _ attrs children _ => cbWalkList children (cbWalkList attrs st)
  | .jsxAttr _ (some v) => cbWalk v st
  | .jsxSpread a => cbWalk a st
  | .jsxExprContainer e => cbWalk e st
  | .jsxFragment children => cbWalkList children st
  | _ => st

/-- `analyzeUseCallbackCall`.  `boundName` is the name of the enclosing
`VariableDeclarator` when the call is directly its initializer (the
`path.parentPath.isVariableDeclarator()` check). -/
def analyzeUseCallbackCall (args : List Node) (loc : Option Loc)
    (callbackId : String) (boundName : Option String) : AnalyzedCallback :=
  let dependencies : List String :=
    match args.get? 1 with
    | some (.arrayLit elems) =>
      elems.filterMap fun el =>
        match el with
        | some (.ident nm) => some nm
        | _ => none
    | _ => []
  let setters : List String :=
    match args.get? 0 with
    | some (.arrow body) => cbChildren body []
    | some (.fnExpr body) => cbChildren body []
    | _ => []
  { id := callbackId, name := boundName,
    dependencies := dedupFirst dependencies,
    setters := dedupFirst setters, definedAt := loc }

/-! ## `analyzeJsxTree`

The source keeps an explicit stack of the currently open JSX element
ids (`jsxStack`), pushed on `JSXElement` enter and popped on exit;
`depth` is the stack length and `parentId` its top at enter time.  In
the recursive walk below the pair `(depth, parent)` carries exactly
that stack discipline: entering a `jsxElem` emits a record and walks
the element's attribute expressions and children with `(depth + 1,
its own id)`; every other node passes the pair through unchanged. -/

/-- `getJsxName` for `JSXMemberExpression` chains: the while-loop of the
source collects the property parts right-to-left and stops after
prepending the innermost `JSXIdentifier` object. -/
def jsxMemberParts : JsxTagName → String → List String
  | .ident s, p => [s, p]
  | .member o q, p => jsxMemberParts o q ++ [p]
  | .namespaced _ _, p => [p]

/-- `getJsxName`. -/
def getJsxName : JsxTagName → String
  | .ident s => s
  | .member o p => String.intercalate "." (jsxMemberParts o p)
  | .namespaced ns nm => ns ++ ":" ++ nm

/-- Attribute scan of one opening element: collect the base identifier
of every `JSXAttribute` whose value is an expression container holding
an identifier or a member expression with an identifier object, and
separately those bound by the `ref` attribute. -/
def extractPropIdents (attrs : List Node) : List String × List String :=
  attrs.foldl
    (fun (acc : List String × List String) attr =>
      match attr with
      | .jsxAttr attrName (some valExpr) =>
        let baseName : Option String :=
          match valExpr with
          | .ident nm => some nm
          | .member (.ident objName) _ => some objName
          | _ => none
        match baseName with
        | some b =>
          (acc.1 ++ [b], if attrName == "ref" then acc.2 ++ [b] else acc.2)
        | none => acc
      | _ => acc)
    ([], [])

mutual

/-- Visit a node and its descendants, collecting `AnalyzedJsxNode`
records in document order. -/
def jsxWalk (n : Node) (depth : Nat) (parent : Option String)
    (acc : List AnalyzedJsxNode) : List AnalyzedJsxNode :=
  match n with
  | .jsxElem tag attrs children loc =>
    let pr := extractPropIdents attrs
    let id := "jsx-" ++ natStr (acc.length + 1)
    let node : AnalyzedJsxNode :=
      { id := id, component := getJsxName tag, depth := depth,
        parentId := parent, props := dedupFirst pr.1,
        refProps := dedupFirst pr.2, definedAt := loc }
    let acc := acc ++ [node]
    jsxWalkList children (depth + 1) (some id)
      (jsxWalkList attrs (depth + 1) (some id) acc)
  | .call callee args _ => jsxWalkList args depth parent (jsxWalk callee depth parent acc)
  | .member obj prop => jsxWalk prop depth parent (jsxWalk obj depth parent acc)
  | .assign l r => jsxWalk r depth parent (jsxWalk l depth parent acc)
  | .arrow body => jsxWalk body depth parent acc
  | .fnExpr body => jsxWalk body depth parent acc
  | .arrayLit elems => jsxWalkOptList elems depth parent acc
  | .arrayPat elems => jsxWalkOptList elems depth parent acc
  | .objectPat props => jsxWalkList props depth parent acc
  | .objProp v => jsxWalk v depth parent acc
  | .exprStmt e => jsxWalk e depth parent acc
  | .ret (some e) => jsxWalk e depth parent acc
  | .block stmts => jsxWalkList stmts depth parent acc
  | .varDecl ds => jsxWalkList ds depth parent acc
  | .declarator id init =>
    let acc := jsxWalk id depth parent acc
    match init with
    | some e => jsxWalk e depth parent acc
    | none => acc
  | .funcDecl _ body => jsxWalk body depth parent acc
  | .exportDefault d => jsxWalk d depth parent acc
  | .exportNamed (some d) specs => jsxWalkList specs depth parent (jsxWalk d depth parent acc)
  | .exportNamed none specs => jsxWalkList specs depth parent acc
  | .jsxAttr _ (some v) => jsxWalk v depth parent acc
  | .jsxSpread a => jsxWalk a depth parent acc
  | .jsxExprContainer e => jsxWalk e depth parent acc
  | .jsxFragment children => jsxWalkList children depth parent acc
  | _ => acc

def jsxWalkList (l : List Node) (depth : Nat) (parent : Option String)
    (acc : List AnalyzedJsxNode) : List AnalyzedJsxNode :=
  match l with
  | [] => acc
  | x :: xs => jsxWalkList xs depth parent (jsxWalk x depth parent acc)

def jsxWalkOptList (l : List (Option Node)) (depth : Nat)
    (parent : Option String) (acc : List AnalyzedJsxNode) :
    List AnalyzedJsxNode :=
  match l with
  | [] => acc
  | some x :: xs => jsxWalkOptList xs depth parent (jsxWalk x depth parent acc)
  | none :: xs => jsxWalkOptList xs depth parent acc

end

/-- `analyzeJsxTree(rootPath, result)`: `rootPath.traverse` visits the
strict descendants of the root only.  If the root node is itself a
`JSXElement` its own enter handler never fires (so nothing is pushed
for it); for any other root, visiting the root is a no-op and the walk
coincides with a full walk of the root. -/
def analyzeJsxTree (root : Node) (acc : List AnalyzedJsxNode) :
    List AnalyzedJsxNode :=
  match root with
  | .jsxElem _ attrs children _ =>
    jsxWalkList children 0 none (jsxWalkList attrs 0 none acc)
  | n => jsxWalk n 0 none acc

/-! ## `analyzeComponentBody` -/

/-- The accumulators threaded through the body analysis. -/
structure BodyState where
  hooks : List AnalyzedHook
  effects : List AnalyzedEffect
  callbacks : List AnalyzedCallback
  jsxNodes : List AnalyzedJsxNode
  globalStateNames : List String
  calledVariableNames : List String
deriving DecidableEq, Repr

/-- Binding-name extraction from a declarator id: a plain identifier,
the identifier elements of an array pattern, or the bound value
identifiers of an object pattern. -/
def patNames : Node → List String
  | .ident nm => [nm]
  | .arrayPat elems =>
    elems.filterMap fun el =>
      match el with
      | some (.ident nm) => some nm
      | _ => none
  | .objectPat props =>
    props.filterMap fun p =>
      match p with
      | .objProp (.ident nm) => some nm
      | _ => none
  | _ => []

/-- The two visitors (`VariableDeclarator`, `CallExpression`) of
`inspectFunctionBody`'s traversal, applied to one node.  `bound` is
the name of the enclosing declarator when this node is directly its
initializer. -/
def ibVisit (importMap : List (String × String)) (n : Node)
    (bound : Option String) (st : BodyState) : BodyState :=
  match n with
  | .declarator id init =>
    match init with
    | some (.call (.ident localName) _ loc) =>
      let src := importLookup importMap localName
      let hookKind := classifyHookKind localName src
      let names := patNames id
      let scope : StateScope :=
        if hookKind = .zustand ∨ hookKind = .reactQuery then .globalScope
        else .localScope
      names.foldl
        (fun st nm =>
          let hook : AnalyzedHook :=
            { id := "hook-" ++ natStr (st.hooks.length + 1), name := nm,
              hookKind := hookKind, scope := scope, definedAt := loc,
              metaImportSource := src }
          let st := { st with hooks := st.hooks ++ [hook] }
          if scope = .globalScope then
            { st with globalStateNames := addSet st.globalStateNames nm }
          else st)
        st
    | _ => st
  | .call callee args loc =>
    match callee with
    | .ident localName =>
      let st :=
        { st with
          calledVariableNames := addSet st.calledVariableNames localName }
      let src := importLookup importMap localName
      let hookKind := classifyHookKind localName src
      if hookKind = .useEffect ∨ hookKind = .useLayoutEffect then
        let effectId := "effect-" ++ natStr (st.effects.length + 1)
        { st with
          effects := st.effects ++
            [analyzeEffectCall args loc effectId hookKind st.globalStateNames] }
      else if hookKind = .useCallback then
        let callbackId := "callback-" ++ natStr (st.callbacks.length + 1)
        { st with
          callbacks := st.callbacks ++
            [analyzeUseCallbackCall args loc callbackId bound] }
      else st
    | _ => st
  | _ => st

mutual

/-- Visit a node (both visitors, via `ibVisit`), then its descendants.
Only a declarator passes a `bound` name to (exactly) its initializer
child. -/
def ibWalk (importMap : List (String × String)) (n : Node)
    (bound : Option String) (st : BodyState) : BodyState :=
  let st := ibVisit importMap n bound st
  match n with
  | .call callee args _ => ibWalkList importMap args (ibWalk importMap callee none st)
  | .member obj prop => ibWalk importMap prop none (ibWalk importMap obj none st)
  | .assign l r => ibWalk importMap r none (ibWalk importMap l none st)
  | .arrow body => ibWalk importMap body none st
  | .fnExpr body => ibWalk importMap body none st
  | .arrayLit elems => ibWalkOptList importMap elems st
  | .arrayPat elems => ibWalkOptList importMap elems st
  | .objectPat props => ibWalkList importMap props st
  | .objProp v => ibWalk importMap v none st
  | .exprStmt e => ibWalk importMap e none st
  | .ret (some e) => ibWalk importMap e none st
  | .block stmts => ibWalkList importMap stmts st
  | .varDecl ds => ibWalkList importMap ds st
  | .declarator id init =>
    let st := ibWalk importMap id none st
    match init with
    | some e =>
      ibWalk importMap e
        (match id with
          | .ident nm => some nm
          | _ => none)
        st
    | none => st
  | .funcDecl _ body => ibWalk importMap body none st
  | .exportDefault d => ibWalk importMap d none st
  | .exportNamed (some d) specs => ibWalkList importMap specs (ibWalk importMap d none st)
  | .exportNamed none specs => ibWalkList importMap specs st
  | .jsxElem _ attrs children _ => ibWalkList importMap children (ibWalkList importMap attrs st)
  | .jsxAttr _ (some v) => ibWalk importMap v none st
  | .jsxSpread a => ibWalk importMap a none st
  | .jsxExprContainer e => ibWalk importMap e none st
  | .jsxFragment children => ibWalkList importMap children st
  | _ => st

def ibWalkList (importMap : List (String × String)) (l : List Node)
    (st : BodyState) : BodyState :=
  match l with
  | [] => st
  | x :: xs => ibWalkList importMap xs (ibWalk importMap x none st)

def ibWalkOptList (importMap : List (String × String))
    (l : List (Option Node)) (st : BodyState) : BodyState :=
  match l with
  | [] => st
  | some x :: xs => ibWalkOptList importMap xs (ibWalk importMap x none st)
  | none :: xs => ibWalkOptList importMap xs st

end

/-- `inspectFunctionBody`: first `analyzeJsxTree` over the body block,
then the hook/call traversal of the same block. -/
def inspectFunctionBody (importMap : List (String × String))
    (stmts : List Node) (st : BodyState) : BodyState :=
  let st := { st with jsxNodes := jsxWalkList stmts 0 none st.jsxNodes }
  ibWalkList importMap stmts st

/-- The two visitors of `analyzeComponentBody`'s outer traversal
(`FunctionDeclaration` and `VariableDeclarator` looking for the
primary component), applied to one node. -/
def topVisit (pcn : Option String) (importMap : List (String × String))
    (n : Node) (st : BodyState) : BodyState :=
  match n with
  | .funcDecl (some nm) body =>
    if pcn == some nm then
      match body with
      | .block stmts => inspectFunctionBody importMap stmts st
      | _ => st
    else st
  | .declarator (.ident nm) (some init) =>
    if pcn == some nm then
      match init with
      | .arrow body =>
        match body with
        | .block stmts => inspectFunctionBody importMap stmts st
        | e => { st with jsxNodes := analyzeJsxTree e st.jsxNodes }
      | .fnExpr body =>
        match body with
        | .block stmts => inspectFunctionBody importMap stmts st
        | e => { st with jsxNodes := analyzeJsxTree e st.jsxNodes }
      | _ => st
    else st
  | _ => st

mutual

/-- The outer traversal of `analyzeComponentBody`: visit a node, then
its descendants. -/
def topWalk (pcn : Option String) (importMap : List (String × String))
    (n : Node) (st : BodyState) : BodyState :=
  let st := topVisit pcn importMap n st
  match n with
  | .call callee args _ => topWalkList pcn importMap args (topWalk pcn importMap callee st)
  | .member obj prop => topWalk pcn importMap prop (topWalk pcn importMap obj st)
  | .assign l r => topWalk pcn importMap r (topWalk pcn importMap l st)
  | .arrow body => topWalk pcn importMap body st
  | .fnExpr body => topWalk pcn importMap body st
  | .arrayLit elems => topWalkOptList pcn importMap elems st
  | .arrayPat elems => topWalkOptList pcn importMap elems st
  | .objectPat props => topWalkList pcn importMap props st
  | .objProp v => topWalk pcn importMap v st
  | .exprStmt e => topWalk pcn importMap e st
  | .ret (some e) => topWalk pcn importMap e st
  | .block stmts => topWalkList pcn importMap stmts st
  | .varDecl ds => topWalkList pcn importMap ds st
  | .declarator id init =>
    let st := topWalk pcn importMap id st
    match init with
    | some e => topWalk pcn importMap e st
    | none => st
  | .funcDecl _ body => topWalk pcn importMap body st
  | .exportDefault d => topWalk pcn importMap d st
  | .exportNamed (some d) specs => topWalkList pcn importMap specs (topWalk pcn importMap d st)
  | .exportNamed none specs => topWalkList pcn importMap specs st
  | .jsxElem _ attrs children _ => topWalkList pcn importMap children (topWalkList pcn importMap attrs st)
  | .jsxAttr _ (some v) => topWalk pcn importMap v st
  | .jsxSpread a => topWalk pcn importMap a st
  | .jsxExprContainer e => topWalk pcn importMap e st
  | .jsxFragment children => topWalkList pcn importMap children st
  | _ => st

def topWalkList (pcn : Option String) (importMap : List (String × String))
    (l : List Node) (st : BodyState) : BodyState :=
  match l with
  | [] => st
  | x :: xs => topWalkList pcn importMap xs (topWalk pcn importMap x st)

def topWalkOptList (pcn : Option String) (importMap : List (String × String))
    (l : List (Option Node)) (st : BodyState) : BodyState :=
  match l with
  | [] => st
  | some x :: xs => topWalkOptList pcn importMap xs (topWalk pcn importMap x st)
  | none :: xs => topWalkOptList pcn importMap xs st

end

/-- `analyzeComponentBody`. -/
def analyzeComponentBody (ast : Ast) (pcn : Option String)
    (importMap : List (String × String)) : BodyState :=
  topWalkList pcn importMap ast ⟨[], [], [], [], [], []⟩

/-! ## The entry point `mapping` -/

/-- The part of `mapping` that runs after the parser has produced an
AST. -/
def mappingOnAst (ast : Ast) (source : String) (fileName : Option String) :
    MappingResult :=
  let importMap := collectImportMap ast
  let exportInfo := collectExportedComponents ast
  let primaryComponentName := pickPrimaryComponent exportInfo fileName
  let st := analyzeComponentBody ast primaryComponentName importMap
  { source := source, fileName := fileName,
    componentName := primaryComponentName,
    hooks := st.hooks, effects := st.effects, callbacks := st.callbacks,
    jsxNodes := st.jsxNodes,
    exportedComponents := exportInfo.namedExports,
    defaultExport := exportInfo.defaultExport,
    errors := [],
    calledVariableNames := st.calledVariableNames }

/-- `mapping(source, fileName?)`.  The first statement is
`const ast = parseSourceToAst(source)`, with no `try`/`catch`: a parser
exception (the `Except.error` case) propagates to the caller. -/
def mapping (parse : String → Except String Ast) (source : String)
    (fileName : Option String) : Except String MappingResult :=
  match parse source with
  | .error e => .error e
  | .ok ast => .ok (mappingOnAst ast source fileName)

/-! ## The graph layout types (`declare namespace BuildGraph`) -/

/-- `BuildGraph.GraphNodeKind`; `variableKind` stands for the string
literal `"variable"`. -/
inductive GraphNodeKind where
  | independent | state | effect | variableKind | jsx | external
deriving DecidableEq, Repr

/-- `BuildGraph.GraphEdgeKind`; `stateDependency`, `stateMutation` and
`stateLink` stand for `"state-dependency"`, `"state-mutation"` and
`"state-link"`. -/
inductive GraphEdgeKind where
  | flow | stateDependency | stateMutation | external | stateLink
deriving DecidableEq, Repr

/-- The free-form `meta : Record<string, unknown>` of a graph node,
modelled with the fields that the layout code later reads (`depth`,
`props`, `refProps`, `jsxParentId`); the write-only entries
(`hookKind`, `scope`, the spread effect/callback record) are not
observable downstream and are left out. -/
structure NodeMeta where
  depth : Option Nat := none
  props : List String := []
  refProps : List String := []
  jsxParentId : Option String := none
deriving DecidableEq, Repr

/-- `BuildGraph.GraphNode` (`x`/`y` are the node's center). -/
structure GraphNode where
  id : String
  label : String
  kind : GraphNodeKind
  x : Nat
  y : Nat
  width : Nat
  height : Nat
  meta : NodeMeta := {}
deriving DecidableEq, Repr

/-- `BuildGraph.EdgeEndpoint`. -/
structure EdgeEndpoint where
  nodeId : String
  x : Nat
  y : Nat
deriving DecidableEq, Repr

/-- `BuildGraph.GraphEdge`; `from` is a Lean keyword, so the endpoint
fields are called `fromEp`/`toEp`. -/
structure GraphEdge where
  id : String
  fromEp : EdgeEndpoint
  toEp : EdgeEndpoint
  kind : GraphEdgeKind
  label : Option String
deriving DecidableEq, Repr

/-- The column x-table; `variableCol` stands for the key `variable`. -/
structure ColX where
  independent : Nat
  state : Nat
  variableCol : Nat
  effect : Nat
  jsx : Nat
deriving DecidableEq, Repr

/-- `BuildGraph.GraphLayout`. -/
structure GraphLayout where
  nodes : List GraphNode
  edges : List GraphEdge
  width : Nat
  height : Nat
  colX : ColX
deriving DecidableEq, Repr

/-! ## `buildGraph`: `buildGraphFromMappingResult` -/

/-- `buildColumnX`. -/
def buildColumnX : ColX :=
  let base := 80
  let gap := 220
  { independent := base, state := base + gap, variableCol := base + gap * 2,
    effect := base + gap * 3, jsx := base + gap * 4 }

/-- The string form of a node kind used in node-id templates. -/
def kindStr : GraphNodeKind → String
  | .independent => "independent"
  | .state => "state"
  | .effect => "effect"
  | .variableKind => "variable"
  | .jsx => "jsx"
  | .external => "external"

/-- The string form of a hook kind (used as effect-node label). -/
def hookKindStr : HookKind → String
  | .useState => "useState"
  | .useRef => "useRef"
  | .useReducer => "useReducer"
  | .useEffect => "useEffect"
  | .useLayoutEffect => "useLayoutEffect"
  | .useCallback => "useCallback"
  | .useMemo => "useMemo"
  | .zustand => "zustand"
  | .reactQuery => "react-query"
  | .custom => "custom"

/-- A column entry (`{ id, label, meta }`). -/
structure ColumnItem where
  id : String
  label : String
  meta : NodeMeta := {}
deriving DecidableEq, Repr

/-- `layoutColumnNodes`. -/
def layoutColumnNodes (items : List ColumnItem) (kind : GraphNodeKind)
    (x startY gapY : Nat) : List GraphNode :=
  items.mapIdx fun index item =>
    { id := kindStr kind ++ "-" ++ item.id, label := item.label, kind := kind,
      x := x, y := startY + index * gapY, width := 120, height := 32,
      meta := item.meta }

/-- The setter-name-to-state-name conversion
`setter.match(/^set([A-Z].*)/)` followed by lower-casing the first
captured letter; a non-matching setter is used as-is. -/
def setterToStateName (setter : String) : String :=
  match setter.data with
  | 's' :: 'e' :: 't' :: c :: rest =>
    if c.isUpper then ⟨c.toLower :: rest⟩ else setter
  | _ => setter

/-- The `dep-…` edge record pushed for a dependency name. -/
def mkDepEdge (effectNode stateNode : GraphNode) (name : String) : GraphEdge :=
  { id := "dep-" ++ stateNode.id ++ "-" ++ effectNode.id ++ "-" ++ name,
    fromEp := ⟨stateNode.id, stateNode.x + stateNode.width / 2, stateNode.y⟩,
    toEp := ⟨effectNode.id, effectNode.x - effectNode.width / 2, effectNode.y⟩,
    kind := .stateDependency, label := some name }

/-- The `dep-ref-…` edge record pushed for a ref read. -/
def mkDepRefEdge (effectNode refNode : GraphNode) (name : String) : GraphEdge :=
  { id := "dep-ref-" ++ refNode.id ++ "-" ++ effectNode.id ++ "-" ++ name,
    fromEp := ⟨refNode.id, refNode.x + refNode.width / 2, refNode.y⟩,
    toEp := ⟨effectNode.id, effectNode.x - effectNode.width / 2, effectNode.y⟩,
    kind := .stateDependency, label := some name }

/-- The `mut-…` edge record pushed for a setter call. -/
def mkMutEdge (effectNode stateNode : GraphNode) (name : String) : GraphEdge :=
  { id := "mut-" ++ effectNode.id ++ "-" ++ stateNode.id ++ "-" ++ name,
    fromEp := ⟨effectNode.id, effectNode.x + effectNode.width / 2, effectNode.y⟩,
    toEp := ⟨stateNode.id, stateNode.x - stateNode.width / 2, stateNode.y⟩,
    kind := .stateMutation, label := some name }

/-- The `mut-ref-…` edge record pushed for a ref write. -/
def mkMutRefEdge (effectNode refNode : GraphNode) (name : String) : GraphEdge :=
  { id := "mut-ref-" ++ effectNode.id ++ "-" ++ refNode.id ++ "-" ++ name,
    fromEp := ⟨effectNode.id, effectNode.x + effectNode.width / 2, effectNode.y⟩,
    toEp := ⟨refNode.id, refNode.x - refNode.width / 2, refNode.y⟩,
    kind := .stateMutation, label := some name }

/-- The four edge families pushed per effect: state→effect dependency
edges, ref→effect read edges, effect→state mutation edges and
effect→ref write edges, each silently skipped when the endpoint lookup
fails. -/
def effectDepEdges (stateNodes independentNodes effectNodes : List GraphNode)
    (effect : AnalyzedEffect) : List GraphEdge :=
  match effectNodes.find? (fun nd => nd.id == "effect-" ++ effect.id) with
  | none => []
  | some effectNode =>
    (effect.dependencies.filterMap fun dep =>
      (stateNodes.find? (fun nd => strStartsWith nd.label dep.name)).map
        fun stateNode => mkDepEdge effectNode stateNode dep.name)
    ++ (effect.refReads.filterMap fun refName =>
      (independentNodes.find? (fun nd => nd.label == refName)).map
        fun refNode => mkDepRefEdge effectNode refNode refName)
    ++ (effect.setters.filterMap fun setter =>
      (stateNodes.find? (fun nd => strStartsWith nd.label (setterToStateName setter))).map
        fun stateNode => mkMutEdge effectNode stateNode setter)
    ++ (effect.refWrites.filterMap fun refName =>
      (independentNodes.find? (fun nd => nd.label == refName)).map
        fun refNode => mkMutRefEdge effectNode refNode refName)

/-- The `cb-mut-…` edge record pushed for a callback setter call. -/
def mkCbMutEdge (cbNode stateNode : GraphNode) (name : String) : GraphEdge :=
  { id := "cb-mut-" ++ cbNode.id ++ "-" ++ stateNode.id ++ "-" ++ name,
    fromEp := ⟨cbNode.id, cbNode.x + cbNode.width / 2, cbNode.y⟩,
    toEp := ⟨stateNode.id, stateNode.x - stateNode.width / 2, stateNode.y⟩,
    kind := .stateMutation, label := some name }

/-- The callback→state mutation edges. -/
def callbackMutEdges (stateNodes effectNodes : List GraphNode)
    (cb : AnalyzedCallback) : List GraphEdge :=
  match effectNodes.find? (fun nd => nd.id == "effect-" ++ cb.id) with
  | none => []
  | some cbNode =>
    cb.setters.filterMap fun setter =>
      (stateNodes.find? (fun nd => strStartsWith nd.label (setterToStateName setter))).map
        fun stateNode => mkCbMutEdge cbNode stateNode setter

/-- The `jsx-ref-attr-…` edge record for a `ref`-attribute attachment. -/
def mkJsxRefAttrEdge (jsxNode rn : GraphNode) (name : String) : GraphEdge :=
  { id := "jsx-ref-attr-" ++ jsxNode.id ++ "-" ++ rn.id ++ "-" ++ name,
    fromEp := ⟨jsxNode.id, jsxNode.x + jsxNode.width / 2, jsxNode.y⟩,
    toEp := ⟨rn.id, rn.x - rn.width / 2, rn.y⟩,
    kind := .stateMutation, label := some name }

/-- The `jsx-ref-prop-…` edge record for a ref passed as an ordinary prop. -/
def mkJsxRefPropEdge (jsxNode rn : GraphNode) (name : String) : GraphEdge :=
  { id := "jsx-ref-prop-" ++ rn.id ++ "-" ++ jsxNode.id ++ "-" ++ name,
    fromEp := ⟨rn.id, rn.x + rn.width / 2, rn.y⟩,
    toEp := ⟨jsxNode.id, jsxNode.x - jsxNode.width / 2, jsxNode.y⟩,
    kind := .stateDependency, label := some name }

/-- The `jsx-prop-…` edge record for a state value passed as a prop. -/
def mkJsxPropEdge (jsxNode sn : GraphNode) (name : String) : GraphEdge :=
  { id := "jsx-prop-" ++ sn.id ++ "-" ++ jsxNode.id ++ "-" ++ name,
    fromEp := ⟨sn.id, sn.x + sn.width / 2, sn.y⟩,
    toEp := ⟨jsxNode.id, jsxNode.x - jsxNode.width / 2, jsxNode.y⟩,
    kind := .stateDependency, label := some name }

/-- The per-JSX-node prop edges: a `ref`-attribute attachment becomes a
jsx→ref mutation edge, an ordinary prop carrying a ref becomes a
ref→jsx dependency edge, and otherwise a matching state node gives a
state→jsx dependency edge; at most one edge per prop name. -/
def jsxPropEdges (independentNodes stateNodes : List GraphNode)
    (jsxNode : GraphNode) : List GraphEdge :=
  jsxNode.meta.props.filterMap fun name =>
    match independentNodes.find? (fun nd => nd.label == name) with
    | some rn =>
      if jsxNode.meta.refProps.contains name then
        some (mkJsxRefAttrEdge jsxNode rn name)
      else some (mkJsxRefPropEdge jsxNode rn name)
    | none =>
      (stateNodes.find? (fun nd => strStartsWith nd.label name)).map
        fun sn => mkJsxPropEdge jsxNode sn name

/-- The anchored replacement of a leading `jsx-` by the empty string
(`node.id.replace` with the `^jsx-` pattern). -/
def stripJsxPre (s : String) : String :=
  if strStartsWith s "jsx-" then ⟨s.data.drop 4⟩ else s

/-- The `jsxNodeMap` lookup (a JS `Map` built with `set`, so the last
entry for a key wins). -/
def jsxNodeMapGet (jsxGraphNodes : List GraphNode) (logicalId : String) :
    Option GraphNode :=
  (((jsxGraphNodes.map fun nd => (stripJsxPre nd.id, nd)).reverse).find?
    (fun p => p.1 == logicalId)).map (·.2)

/-- The `jsx-tree-…` edge record for a parent–child pair. -/
def mkJsxTreeEdge (parentNode childNode : GraphNode) : GraphEdge :=
  { id := "jsx-tree-" ++ parentNode.id ++ "-" ++ childNode.id,
    fromEp := ⟨parentNode.id, parentNode.x + parentNode.width / 2, parentNode.y⟩,
    toEp := ⟨childNode.id, childNode.x - childNode.width / 2, childNode.y⟩,
    kind := .flow, label := none }

/-- The parent–child (`jsx-tree-…`) edges. -/
def jsxTreeEdges (jsxGraphNodes : List GraphNode)
    (jsxRecords : List AnalyzedJsxNode) : List GraphEdge :=
  jsxRecords.filterMap fun jsx =>
    if truthyOpt jsx.parentId then
      match jsxNodeMapGet jsxGraphNodes (jsx.parentId.getD ""),
          jsxNodeMapGet jsxGraphNodes jsx.id with
      | some parentNode, some childNode =>
        some (mkJsxTreeEdge parentNode childNode)
      | _, _ => none
    else none

/-- Ascending insertion into a sorted list. -/
def insertSorted (x : Nat) : List Nat → List Nat
  | [] => [x]
  | y :: ys => if x ≤ y then x :: y :: ys else y :: insertSorted x ys

/-- Ascending numeric sort (`.sort((a, b) => a[0] - b[0])` on the
depth keys, which are distinct after grouping). -/
def sortNats (l : List Nat) : List Nat := l.foldr insertSorted []

/-- The jsx column nodes: grouped by depth (keys in first-encounter
order, then sorted ascending as `Array.from(map).sort(...)` does),
each group stacked in document order. -/
def buildJsxGraphNodes (colX : ColX) (jsxRecords : List AnalyzedJsxNode) :
    List GraphNode :=
  let sortedDepths := sortNats (dedupFirst (jsxRecords.map (·.depth)))
  sortedDepths.flatMap fun d =>
    (jsxRecords.filter (fun it => it.depth == d)).mapIdx fun index item =>
      { id := "jsx-" ++ item.id, label := item.component, kind := .jsx,
        x := colX.jsx + d * 160, y := 80 + d * 80 + index * 32,
        width := 120, height := 32,
        meta := { depth := some item.depth, props := item.props,
                  refProps := item.refProps,
                  jsxParentId :=
                    if truthyOpt item.parentId then
                      item.parentId.map ("jsx-" ++ ·)
                    else none } }

/-- `buildGraphFromMappingResult`. -/
def buildGraphFromMappingResult : Option MappingResult → GraphLayout
  | none =>
    let colX := buildColumnX
    { nodes := [], edges := [], width := colX.jsx + 200, height := 800,
      colX := colX }
  | some m =>
    let colX := buildColumnX
    let independentItems : List ColumnItem :=
      (m.hooks.filter (fun h => h.hookKind == .useRef)).map fun h =>
        { id := h.id, label := h.name }
    let independentNodes :=
      layoutColumnNodes independentItems .independent colX.independent 80 50
    let stateItems : List ColumnItem :=
      (m.hooks.filter (fun h =>
        h.hookKind == .useState || h.hookKind == .zustand ||
          h.hookKind == .reactQuery)).map fun h =>
        { id := h.id,
          label := if h.scope == .globalScope then h.name ++ " (global)" else h.name }
    let stateNodes := layoutColumnNodes stateItems .state colX.state 80 40
    let effectItems : List ColumnItem :=
      m.effects.map (fun e => { id := e.id, label := hookKindStr e.hookKind })
        ++ m.callbacks.map (fun cb =>
          { id := cb.id, label := cb.name.getD "callback" })
    let effectNodes := layoutColumnNodes effectItems .effect colX.effect 80 40
    let jsxGraphNodes := buildJsxGraphNodes colX m.jsxNodes
    let nodes := independentNodes ++ stateNodes ++ effectNodes ++ jsxGraphNodes
    let edges :=
      m.effects.flatMap (effectDepEdges stateNodes independentNodes effectNodes)
        ++ m.callbacks.flatMap (callbackMutEdges stateNodes effectNodes)
        ++ jsxGraphNodes.flatMap (jsxPropEdges independentNodes stateNodes)
        ++ jsxTreeEdges jsxGraphNodes m.jsxNodes
    let width := colX.jsx + 200
    let lastJsxY := match jsxGraphNodes.getLast? with
      | some nd => nd.y
      | none => 600
    let height := lastJsxY + 120
    { nodes := nodes, edges := edges, width := width, height := height,
      colX := colX }

/-! ## `RenderGraphSvg.tsx`: the recursive element-tree row packer

`applyJsxTreeLayout` resolves, for every jsx graph node, its children
as the jsx nodes whose `meta.jsxParentId` equals its id (in list
order), and runs `layoutSubtree` over that children relation.  An
`ETree` value carries exactly that resolved relation, so the recursion
below is the recursion of the source verbatim: position assignment,
first child at the parent's `rowStart`, later children below all rows
used by earlier siblings, and `Math.max(1, cursorRow - rowStart)` rows
returned. -/

/-- An element-tree node: its node id and its resolved children. -/
inductive ETree where
  | mk (id : String) (children : List ETree)

def ETree.rootId : ETree → String
  | .mk id _ => id

mutual

/-- `layoutSubtree(node, depth, rowStart)`; returns the recorded
`(id, x, y)` positions (in `newNodePositions.set` order) and the number
of rows the subtree used.  `baseX` is `colX.jsx`. -/
def layoutSubtree (baseX : Nat) (t : ETree) (depth rowStart : Nat) :
    List (String × Nat × Nat) × Nat :=
  match t with
  | .mk id children =>
    let pos := (id, baseX + depth * 160, 80 + rowStart * 40)
    match children with
    | [] => ([pos], 1)
    | c :: rest =>
      let fst := layoutSubtree baseX c (depth + 1) rowStart
      let sib := layoutSiblings baseX rest (depth + 1) (rowStart + fst.2)
      (pos :: fst.1 ++ sib.1, max 1 (sib.2 - rowStart))

/-- The `for (let i = 1; ...)` loop over the remaining siblings;
returns their positions and the final `cursorRow`. -/
def layoutSiblings (baseX : Nat) (ts : List ETree) (depth cursorRow : Nat) :
    List (String × Nat × Nat) × Nat :=
  match ts with
  | [] => ([], cursorRow)
  | t :: rest =>
    let r := layoutSubtree baseX t depth cursorRow
    let s := layoutSiblings baseX rest depth (cursorRow + r.2)
    (r.1 ++ s.1, s.2)

end

/-- The root loop of `applyJsxTreeLayout`: `currentRow` starts at `0`
and advances by each root subtree's row usage. -/
def layoutRoots (baseX : Nat) (roots : List ETree) (currentRow : Nat) :
    List (String × Nat × Nat) × Nat :=
  match roots with
  | [] => ([], currentRow)
  | r :: rest =>
    let s := layoutSubtree baseX r 0 currentRow
    let next := layoutRoots baseX rest (currentRow + s.2)
    (s.1 ++ next.1, next.2)

mutual

/-- Specification-side row count: a leaf consumes one row; a node with
children consumes the total of its children's consumption (floored at
one). -/
def rowsOf : ETree → Nat
  | .mk _ [] => 1
  | .mk _ (c :: rest) => max 1 (rowsOf c + sumRows rest)

def sumRows : List ETree → Nat
  | [] => 0
  | t :: ts => rowsOf t + sumRows ts

end

mutual

/-- Specification-side placement: a node sits at its depth column and
starting row; its first child starts at the same row, and every later
child starts immediately below the rows consumed by all of its earlier
siblings. -/
def specPositions (baseX : Nat) (t : ETree) (depth row : Nat) :
    List (String × Nat × Nat) :=
  match t with
  | .mk id cs =>
    (id, baseX + depth * 160, 80 + row * 40) :: specChildren baseX cs (depth + 1) row

def specChildren (baseX : Nat) (ts : List ETree) (depth row : Nat) :
    List (String × Nat × Nat) :=
  match ts with
  | [] => []
  | t :: rest =>
    specPositions baseX t depth row ++ specChildren baseX rest depth (row + rowsOf t)

end

/-- Specification-side root placement: each successive root subtree
starts at the row immediately following the previous root's total
consumption. -/
def specRoots (baseX : Nat) (roots : List ETree) (row : Nat) :
    List (String × Nat × Nat) :=
  match roots with
  | [] => []
  | t :: rest => specPositions baseX t 0 row ++ specRoots baseX rest (row + rowsOf t)

/-- The row index encoded in a recorded position
(`y = 80 + row * 40`). -/
def rowOfPos (p : String × Nat × Nat) : Nat := (p.2.2 - 80) / 40

/-- The maximum row index reached by a list of recorded positions. -/
def maxRowOf (ps : List (String × Nat × Nat)) : Nat :=
  ps.foldl (fun a p => max a (rowOfPos p)) 0

/-! # Claims

The remainder of the file settles the claims about the code above. -/

/-! ## C9: determinism of the graph builder -/

/-- C9: `buildGraphFromMappingResult` is deterministic: two invocations
on the same fact-model value yield identical layouts — the same node
list, edge list and all coordinates.  The embedding is a pure function
of the fact model alone: the source derives every id and coordinate
from the input (no random or time-dependent values occur in it). -/
theorem buildGraph_deterministic (m₁ m₂ : Option MappingResult)
    (h : m₁ = m₂) :
    (buildGraphFromMappingResult m₁).nodes = (buildGraphFromMappingResult m₂).nodes ∧
    (buildGraphFromMappingResult m₁).edges = (buildGraphFromMappingResult m₂).edges ∧
    buildGraphFromMappingResult m₁ = buildGraphFromMappingResult m₂ := by
  subst h
  exact ⟨rfl, rfl, rfl⟩

theorem buildGraph_deterministic_witness :
    (buildGraphFromMappingResult none).nodes = (buildGraphFromMappingResult none).nodes ∧
    (buildGraphFromMappingResult none).edges = (buildGraphFromMappingResult none).edges ∧
    buildGraphFromMappingResult none = buildGraphFromMappingResult none :=
  buildGraph_deterministic none none rfl

/-! ## C1: a parse failure is *not* recovered by `mapping`

`mapping` calls `parseSourceToAst(source)` as its first statement with
no `try`/`catch`, so a parser exception propagates out of `mapping`
instead of being converted into a fact model with one error entry.
(The superseded analyzer `src/libs/analyzeReactComponent.ts` does catch
the parse error and returns a single descriptive entry, and the
`MappingResult.errors` field is documented as consumed by the UI, so
the claimed recovery is clearly the intent.) -/

/-- C1: for every source string the parser rejects, `mapping` returns
the parser's exception unchanged — it does not return a fact model at
all, hence not one with empty record lists and one error entry. -/
theorem mapping_propagates_parse_error
    (parse : String → Except String Ast) (source : String)
    (fileName : Option String) (e : String)
    (h : parse source = .error e) :
    mapping parse source fileName = .error e := by
  simp [mapping, h]

theorem mapping_propagates_parse_error_witness :
    mapping (fun _ => .error "SyntaxError: Unterminated JSX contents")
      "<div" none = .error "SyntaxError: Unterminated JSX contents" :=
  mapping_propagates_parse_error _ "<div" none _ rfl

/-! ## C10: no analysis stage after parsing appends an error -/

/-- C10: whenever parsing succeeds, `mapping` returns a fact model
whose `errors` list is empty: `errors` is created as `[]` after all
analysis stages have run and nothing is ever pushed into it. -/
theorem mapping_ok_errors_empty
    (parse : String → Except String Ast) (source : String)
    (fileName : Option String) (ast : Ast)
    (h : parse source = .ok ast) :
    mapping parse source fileName = .ok (mappingOnAst ast source fileName) ∧
    (mappingOnAst ast source fileName).errors = [] := by
  refine ⟨?_, rfl⟩
  simp [mapping, h]

theorem mapping_ok_errors_empty_witness :
    mapping (fun _ => .ok []) "" none = .ok (mappingOnAst [] "" none) ∧
    (mappingOnAst [] "" none).errors = [] :=
  mapping_ok_errors_empty (fun _ => .ok []) "" none [] rfl

/-! ## C7: dependency array and setter extraction of an effect -/

/-- C7: for an effect call whose second argument is the dependency
array `[a, b]` and whose function-literal body calls `setA(x)`, the
effect record's dependencies are exactly `{a, G.contains a}` and
`{b, G.contains b}` — `false` unless the name is registered in the
global-state name set `G` — and its setter set is exactly
`{"setA"}`. -/
theorem effect_deps_and_setters (a b x : String) (G : List String)
    (effectId : String) (kind : HookKind) (loc : Option Loc) :
    analyzeEffectCall
      [ .arrow (.block [.exprStmt (.call (.ident "setA") [.ident x] none)]),
        .arrayLit [some (.ident a), some (.ident b)] ]
      loc effectId kind G
      = { id := effectId, hookKind := kind,
          dependencies := [⟨a, G.contains a⟩, ⟨b, G.contains b⟩],
          setters := ["setA"], refReads := [], refWrites := [],
          definedAt := loc } := by
  rfl

/-! ## C6: reference writes vs reads in an effect body -/

/-- C6: in an effect body, `fooRef.current = 1` records `fooRef` in
`refWrites` and contributes nothing to `refReads`, while a bare read
`console.log(fooRef.current)` records `fooRef` in `refReads` only --
for any reference name ending in `Ref`. -/
theorem effect_ref_write_read (s : String) (h : strEndsWith s "Ref" = true)
    (effectId : String) (kind : HookKind) (loc : Option Loc)
    (G : List String) :
    (analyzeEffectCall
      [.arrow (.block [.exprStmt
        (.assign (.member (.ident s) (.ident "current")) .lit)])]
      loc effectId kind G).refWrites = [s] ∧
    (analyzeEffectCall
      [.arrow (.block [.exprStmt
        (.assign (.member (.ident s) (.ident "current")) .lit)])]
      loc effectId kind G).refReads = [] ∧
    (analyzeEffectCall
      [.arrow (.block [.exprStmt
        (.call (.member (.ident "console") (.ident "log"))
          [.member (.ident s) (.ident "current")] none)])]
      loc effectId kind G).refReads = [s] ∧
    (analyzeEffectCall
      [.arrow (.block [.exprStmt
        (.call (.member (.ident "console") (.ident "log"))
          [.member (.ident s) (.ident "current")] none)])]
      loc effectId kind G).refWrites = [] := by
  have hc : strEndsWith "console" "Ref" = false := by decide
  simp [analyzeEffectCall, effChildren, effWalkList, effWalk, effVisit,
    effWalkOptList, h, hc, dedupFirst]

theorem effect_ref_write_read_witness :
    strEndsWith "fooRef" "Ref" = true ∧
    ((analyzeEffectCall
      [.arrow (.block [.exprStmt
        (.assign (.member (.ident "fooRef") (.ident "current")) .lit)])]
      none "effect-1" .useEffect []).refWrites = ["fooRef"] ∧
    (analyzeEffectCall
      [.arrow (.block [.exprStmt
        (.assign (.member (.ident "fooRef") (.ident "current")) .lit)])]
      none "effect-1" .useEffect []).refReads = [] ∧
    (analyzeEffectCall
      [.arrow (.block [.exprStmt
        (.call (.member (.ident "console") (.ident "log"))
          [.member (.ident "fooRef") (.ident "current")] none)])]
      none "effect-1" .useEffect []).refReads = ["fooRef"] ∧
    (analyzeEffectCall
      [.arrow (.block [.exprStmt
        (.call (.member (.ident "console") (.ident "log"))
          [.member (.ident "fooRef") (.ident "current")] none)])]
      none "effect-1" .useEffect []).refWrites = []) :=
  ⟨by decide, effect_ref_write_read "fooRef" (by decide) "effect-1" .useEffect none []⟩

/-! ## C5: a `ref`-attached `useRef` in the layout -/

/-- The component of the scenario:
`export default function C() { const boxRef = useRef(null);`
`return <div ref={boxRef} />; }`. -/
def refAttachAst : Ast :=
  [ .exportDefault (.funcDecl (some "C") (.block
      [ .varDecl [.declarator (.ident "boxRef")
          (some (.call (.ident "useRef") [.lit] none))],
        .ret (some (.jsxElem (.ident "div")
          [.jsxAttr "ref" (some (.ident "boxRef"))] [] none)) ])) ]

/-- C5: for the component declaring a `useRef` named `boxRef` attached
via `<div ref={boxRef} />`, the layout contains exactly one
independent-column node labeled `boxRef`, and the edge list is exactly
one edge — from the element node to the reference node, of mutation
kind — so in particular no dependency-kind edge from the reference
node to the element node exists. -/
theorem ref_attachment_layout :
    ((buildGraphFromMappingResult
        (some (mappingOnAst refAttachAst "src" none))).nodes.filter
      (fun nd => nd.kind == .independent)).map (·.label) = ["boxRef"] ∧
    (buildGraphFromMappingResult
        (some (mappingOnAst refAttachAst "src" none))).edges =
      [⟨"jsx-ref-attr-jsx-jsx-1-independent-hook-1-boxRef",
        ⟨"jsx-jsx-1", 1020, 80⟩, ⟨"independent-hook-1", 20, 80⟩,
        .stateMutation, some "boxRef"⟩] ∧
    ((buildGraphFromMappingResult
        (some (mappingOnAst refAttachAst "src" none))).edges.filter
      (fun e => e.kind == .stateDependency)) = [] := by
  refine ⟨by decide, by decide, by decide⟩

/-! ## C2: array-destructured `useState` declarations

One declaration `const [x, setX] = useState(...)` produces one hook
record *per bound name* (`names.forEach` over the array-pattern
elements), so it yields two `useState` hook records, not one: the
claim's count of `N` records for `N` declarations is off by a factor
of two.  Everything else in the claim holds: all records have kind
`useState`, scope `"local"`, and pairwise distinct ids. -/

/-- `const [x, setX] = useState(...)` for the name pair `p`. -/
def useStateDecl (p : String × String) : Node :=
  .varDecl [.declarator (.arrayPat [some (.ident p.1), some (.ident p.2)])
    (some (.call (.ident "useState") [.lit] none))]

/-- A component whose body is exactly the given `useState`
declarations:
`export default function C() { const [xᵢ, setXᵢ] = useState(...); … }`. -/
def useStateAst (pairs : List (String × String)) : Ast :=
  [.exportDefault (.funcDecl (some "C") (.block (pairs.map useStateDecl)))]

/-- The hook record generated for the bound name `nm` at position `k`
of the hooks list. -/
def hook1 (k : Nat) (nm : String) : AnalyzedHook :=
  ⟨"hook-" ++ natStr (k + 1), nm, .useState, .localScope, none, none⟩

/-- The hook records generated by the declarations, two per pair,
with sequential position-based ids starting at `k + 1`. -/
def hooksFrom (k : Nat) : List (String × String) → List AnalyzedHook
  | [] => []
  | p :: rest => hook1 k p.1 :: hook1 (k + 1) p.2 :: hooksFrom (k + 2) rest

theorem ibWalk_useStateDecl (p : String × String) (st : BodyState) :
    ibWalk [] (useStateDecl p) none st =
      { st with
        hooks := st.hooks ++
          [hook1 st.hooks.length p.1, hook1 (st.hooks.length + 1) p.2],
        calledVariableNames := addSet st.calledVariableNames "useState" } := by
  simp [ibWalk, ibVisit, ibWalkList, ibWalkOptList, useStateDecl, patNames,
    classifyHookKind, importLookup, hook1]

theorem ibWalkList_useState (pairs : List (String × String)) (st : BodyState) :
    (ibWalkList [] (pairs.map useStateDecl) st).hooks
        = st.hooks ++ hooksFrom st.hooks.length pairs ∧
      (ibWalkList [] (pairs.map useStateDecl) st).effects = st.effects ∧
      (ibWalkList [] (pairs.map useStateDecl) st).callbacks = st.callbacks ∧
      (ibWalkList [] (pairs.map useStateDecl) st).jsxNodes = st.jsxNodes := by
  induction pairs generalizing st with
  | nil => simp [ibWalkList, hooksFrom]
  | cons p rest ih =>
    simp only [List.map_cons, ibWalkList, ibWalk_useStateDecl]
    have := ih { st with
      hooks := st.hooks ++
        [hook1 st.hooks.length p.1, hook1 (st.hooks.length + 1) p.2],
      calledVariableNames := addSet st.calledVariableNames "useState" }
    simp only at this
    rw [this.1, this.2.1, this.2.2.1, this.2.2.2]
    simp [hooksFrom, List.length_append, List.append_assoc]

theorem jsxWalkList_useState (pairs : List (String × String))
    (acc : List AnalyzedJsxNode) :
    jsxWalkList (pairs.map useStateDecl) 0 none acc = acc := by
  induction pairs generalizing acc with
  | nil => rfl
  | cons p rest ih =>
    simp only [List.map_cons, jsxWalkList]
    rw [show jsxWalk (useStateDecl p) 0 none acc = acc from rfl]
    exact ih acc

theorem topWalkList_useState (pairs : List (String × String)) (st : BodyState) :
    topWalkList (some "C") [] (pairs.map useStateDecl) st = st := by
  induction pairs generalizing st with
  | nil => rfl
  | cons p rest ih =>
    simp only [List.map_cons, topWalkList]
    rw [show topWalk (some "C") [] (useStateDecl p) st = st from rfl]
    exact ih st

/-- The hooks of the analyzed component are exactly the generated
records, and no effect or callback records appear. -/
theorem useState_hooks_characterization (pairs : List (String × String)) :
    (mappingOnAst (useStateAst pairs) "src" none).hooks = hooksFrom 0 pairs ∧
    (mappingOnAst (useStateAst pairs) "src" none).effects = [] ∧
    (mappingOnAst (useStateAst pairs) "src" none).callbacks = [] := by
  have h1 : mappingOnAst (useStateAst pairs) "src" none
      = { source := "src", fileName := none, componentName := some "C",
          hooks := (topWalkList (some "C") [] (pairs.map useStateDecl)
            (inspectFunctionBody [] (pairs.map useStateDecl)
              ⟨[], [], [], [], [], []⟩)).hooks,
          effects := (topWalkList (some "C") [] (pairs.map useStateDecl)
            (inspectFunctionBody [] (pairs.map useStateDecl)
              ⟨[], [], [], [], [], []⟩)).effects,
          callbacks := (topWalkList (some "C") [] (pairs.map useStateDecl)
            (inspectFunctionBody [] (pairs.map useStateDecl)
              ⟨[], [], [], [], [], []⟩)).callbacks,
          jsxNodes := (topWalkList (some "C") [] (pairs.map useStateDecl)
            (inspectFunctionBody [] (pairs.map useStateDecl)
              ⟨[], [], [], [], [], []⟩)).jsxNodes,
          exportedComponents := [], defaultExport := some "C", errors := [],
          calledVariableNames := (topWalkList (some "C") []
            (pairs.map useStateDecl)
            (inspectFunctionBody [] (pairs.map useStateDecl)
              ⟨[], [], [], [], [], []⟩)).calledVariableNames } := rfl
  rw [h1, topWalkList_useState]
  have h2 : inspectFunctionBody [] (pairs.map useStateDecl)
      ⟨[], [], [], [], [], []⟩
      = ibWalkList [] (pairs.map useStateDecl)
          ⟨[], [], [], jsxWalkList (pairs.map useStateDecl) 0 none [],
            [], []⟩ := rfl
  rw [h2]
  have hib := ibWalkList_useState pairs
    ⟨[], [], [], jsxWalkList (pairs.map useStateDecl) 0 none [], [], []⟩
  exact ⟨hib.1, hib.2.1, hib.2.2.1⟩

theorem strApp_left_cancel (a x y : String) (h : a ++ x = a ++ y) : x = y := by
  have hd : a.data ++ x.data = a.data ++ y.data := by
    have := congrArg String.data h
    simpa [String.data_append] using this
  cases x
  cases y
  simp_all

theorem hookId_inj (a b : Nat)
    (h : "hook-" ++ natStr a = "hook-" ++ natStr b) : a = b :=
  natStr_injective (strApp_left_cancel _ _ _ h)

theorem hooksFrom_length (k : Nat) (pairs : List (String × String)) :
    (hooksFrom k pairs).length = 2 * pairs.length := by
  induction pairs generalizing k with
  | nil => rfl
  | cons p rest ih =>
    simp [hooksFrom, ih]
    omega

theorem hooksFrom_kind_scope (k : Nat) (pairs : List (String × String)) :
    ∀ h ∈ hooksFrom k pairs,
      h.hookKind = .useState ∧ h.scope = .localScope := by
  induction pairs generalizing k with
  | nil => simp [hooksFrom]
  | cons p rest ih =>
    intro h hmem
    simp [hooksFrom] at hmem
    rcases hmem with h1 | h2 | h3
    · subst h1; exact ⟨rfl, rfl⟩
    · subst h2; exact ⟨rfl, rfl⟩
    · exact ih (k + 2) h h3

theorem hooksFrom_id_shape (k : Nat) (pairs : List (String × String)) :
    ∀ h ∈ hooksFrom k pairs, ∃ j, k < j ∧ h.id = "hook-" ++ natStr j := by
  induction pairs generalizing k with
  | nil => simp [hooksFrom]
  | cons p rest ih =>
    intro h hmem
    simp [hooksFrom] at hmem
    rcases hmem with h1 | h2 | h3
    · exact ⟨k + 1, by omega, by rw [h1]; rfl⟩
    · exact ⟨k + 2, by omega, by rw [h2]; rfl⟩
    · obtain ⟨j, hj, hid⟩ := ih (k + 2) h h3
      exact ⟨j, by omega, hid⟩

theorem hooksFrom_ids_nodup (k : Nat) (pairs : List (String × String)) :
    ((hooksFrom k pairs).map (·.id)).Nodup := by
  induction pairs generalizing k with
  | nil => simp [hooksFrom]
  | cons p rest ih =>
    simp only [hooksFrom, List.map_cons, List.nodup_cons]
    refine ⟨?_, ?_, ih (k + 2)⟩
    · intro hmem
      rcases List.mem_cons.1 hmem with h1 | h2
      · have : k + 1 = k + 2 := hookId_inj _ _ h1
        omega
      · obtain ⟨h, hh, hid⟩ := List.mem_map.1 h2
        obtain ⟨j, hj, hjid⟩ := hooksFrom_id_shape (k + 2) rest h hh
        rw [hjid] at hid
        have : j = k + 1 := hookId_inj _ _ hid
        omega
    · intro hmem
      obtain ⟨h, hh, hid⟩ := List.mem_map.1 hmem
      obtain ⟨j, hj, hjid⟩ := hooksFrom_id_shape (k + 2) rest h hh
      rw [hjid] at hid
      have : j = k + 2 := hookId_inj _ _ hid
      omega

/-- C2 (counterexample): a component with exactly one array-destructured
`useState` declaration, `const [x, setX] = useState(...)`, yields **two**
hook records of kind `useState` — not one, as the claim states for
`N = 1`. -/
theorem useState_one_decl_two_records :
    ((mappingOnAst (useStateAst [("x", "setX")]) "src" none).hooks.filter
        (fun h => h.hookKind == HookKind.useState)).length = 2 ∧
    ((mappingOnAst (useStateAst [("x", "setX")]) "src" none).hooks.filter
        (fun h => h.hookKind == HookKind.useState)).length ≠ 1 :=
  ⟨by decide, by decide⟩

/-- C2 (amended): for a syntactically valid component whose body
consists of `N` array-destructured `useState` declarations
`const [x, setX] = useState(...)`, the fact model contains exactly
`2·N` hook records of kind `useState` — one per destructured name, the
value and the setter — each with scope `"local"` and a distinct id. -/
theorem useState_decls_hook_records (pairs : List (String × String)) :
    ((mappingOnAst (useStateAst pairs) "src" none).hooks.filter
        (fun h => h.hookKind == HookKind.useState)).length
      = 2 * pairs.length ∧
    (mappingOnAst (useStateAst pairs) "src" none).hooks.length
      = 2 * pairs.length ∧
    (∀ h ∈ (mappingOnAst (useStateAst pairs) "src" none).hooks,
      h.hookKind = .useState ∧ h.scope = .localScope) ∧
    ((mappingOnAst (useStateAst pairs) "src" none).hooks.map (·.id)).Nodup := by
  obtain ⟨h1, -, -⟩ := useState_hooks_characterization pairs
  rw [h1]
  have hall : ∀ h ∈ hooksFrom 0 pairs,
      (fun h => h.hookKind == HookKind.useState) h = true := by
    intro h hh
    simp [(hooksFrom_kind_scope 0 pairs h hh).1]
  refine ⟨?_, hooksFrom_length 0 pairs, hooksFrom_kind_scope 0 pairs,
    hooksFrom_ids_nodup 0 pairs⟩
  rw [List.filter_eq_self.2 hall]
  exact hooksFrom_length 0 pairs

theorem useState_decls_hook_records_witness :
    ((mappingOnAst (useStateAst [("count", "setCount")]) "src" none).hooks.filter
        (fun h => h.hookKind == HookKind.useState)).length = 2 * 1 ∧
    ((mappingOnAst (useStateAst [("count", "setCount")]) "src"
      none).hooks.length = 2 * 1) ∧
    (hook1 0 "count" ∈
        (mappingOnAst (useStateAst [("count", "setCount")]) "src" none).hooks ∧
      (hook1 0 "count").hookKind = .useState ∧
      (hook1 0 "count").scope = .localScope) ∧
    ((mappingOnAst (useStateAst [("count", "setCount")]) "src"
      none).hooks.map (·.id)).Nodup := by
  have h := useState_decls_hook_records [("count", "setCount")]
  have hmem : hook1 0 "count" ∈
      (mappingOnAst (useStateAst [("count", "setCount")]) "src" none).hooks := by
    decide
  exact ⟨h.1, h.2.1, ⟨hmem, h.2.2.1 (hook1 0 "count") hmem⟩, h.2.2.2⟩

/-! ## C8: primary-component selection and degradation to empty output -/


mutual

theorem topWalk_none (im : List (String × String)) (n : Node) (st : BodyState) :
    topWalk none im n st = st := by
  have hv : topVisit none im n st = st := by
    cases n with
    | funcDecl id body => cases id <;> rfl
    | declarator pid pinit => cases pid <;> cases pinit <;> rfl
    | _ => rfl
  cases n with
  | call callee args loc =>
    show topWalkList none im args (topWalk none im callee st) = st
    rw [topWalk_none im callee st, topWalkList_none im args st]
  | member obj prop =>
    show topWalk none im prop (topWalk none im obj st) = st
    rw [topWalk_none im obj st, topWalk_none im prop st]
  | assign l r =>
    show topWalk none im r (topWalk none im l st) = st
    rw [topWalk_none im l st, topWalk_none im r st]
  | arrow body => exact topWalk_none im body st
  | fnExpr body => exact topWalk_none im body st
  | arrayLit elems => exact topWalkOptList_none im elems st
  | arrayPat elems => exact topWalkOptList_none im elems st
  | objectPat props => exact topWalkList_none im props st
  | objProp v => exact topWalk_none im v st
  | exprStmt e => exact topWalk_none im e st
  | ret arg =>
    cases arg with
    | some e => exact topWalk_none im e st
    | none => rfl
  | block stmts => exact topWalkList_none im stmts st
  | varDecl ds => exact topWalkList_none im ds st
  | declarator pid pinit =>
    cases pinit with
    | some e =>
      show topWalk none im e (topWalk none im pid
        (topVisit none im (.declarator pid (some e)) st)) = st
      rw [hv, topWalk_none im pid st, topWalk_none im e st]
    | none =>
      show topWalk none im pid
        (topVisit none im (.declarator pid none) st) = st
      rw [hv, topWalk_none im pid st]
  | funcDecl id body =>
    show topWalk none im body (topVisit none im (.funcDecl id body) st) = st
    rw [hv, topWalk_none im body st]
  | exportDefault d => exact topWalk_none im d st
  | exportNamed decl specs =>
    cases decl with
    | some d =>
      show topWalkList none im specs (topWalk none im d st) = st
      rw [topWalk_none im d st, topWalkList_none im specs st]
    | none => exact topWalkList_none im specs st
  | jsxElem tag attrs children loc =>
    show topWalkList none im children (topWalkList none im attrs st) = st
    rw [topWalkList_none im attrs st, topWalkList_none im children st]
  | jsxAttr nm value =>
    cases value with
    | some v => exact topWalk_none im v st
    | none => rfl
  | jsxSpread a => exact topWalk_none im a st
  | jsxExprContainer e => exact topWalk_none im e st
  | jsxFragment children => exact topWalkList_none im children st
  | _ => rfl

theorem topWalkList_none (im : List (String × String)) (l : List Node)
    (st : BodyState) : topWalkList none im l st = st := by
  cases l with
  | nil => rfl
  | cons x xs =>
    show topWalkList none im xs (topWalk none im x st) = st
    rw [topWalk_none im x st, topWalkList_none im xs st]

theorem topWalkOptList_none (im : List (String × String))
    (l : List (Option Node)) (st : BodyState) :
    topWalkOptList none im l st = st := by
  cases l with
  | nil => rfl
  | cons x xs =>
    cases x with
    | some e =>
      show topWalkOptList none im xs (topWalk none im e st) = st
      rw [topWalk_none im e st, topWalkOptList_none im xs st]
    | none => exact topWalkOptList_none im xs st

end

theorem strNe_data_ne (d : String) (h : d ≠ "") : d.data ≠ [] := by
  intro hd
  apply h
  cases d
  simp only at hd
  subst hd
  rfl

/-- With no primary component, the whole analysis degrades to a fact
model with empty record lists (and an empty error list), not an
error. -/
theorem mappingOnAst_no_primary (ast : Ast) (src : String)
    (fn : Option String)
    (h : pickPrimaryComponent (collectExportedComponents ast) fn = none) :
    (mappingOnAst ast src fn).componentName = none ∧
    (mappingOnAst ast src fn).hooks = [] ∧
    (mappingOnAst ast src fn).effects = [] ∧
    (mappingOnAst ast src fn).callbacks = [] ∧
    (mappingOnAst ast src fn).jsxNodes = [] ∧
    (mappingOnAst ast src fn).errors = [] := by
  have hb : analyzeComponentBody ast none (collectImportMap ast)
      = ⟨[], [], [], [], [], []⟩ :=
    topWalkList_none (collectImportMap ast) ast ⟨[], [], [], [], [], []⟩
  have hcomp : (mappingOnAst ast src fn).componentName
      = pickPrimaryComponent (collectExportedComponents ast) fn := rfl
  have hhooks : (mappingOnAst ast src fn).hooks
      = (analyzeComponentBody ast
          (pickPrimaryComponent (collectExportedComponents ast) fn)
          (collectImportMap ast)).hooks := rfl
  have heff : (mappingOnAst ast src fn).effects
      = (analyzeComponentBody ast
          (pickPrimaryComponent (collectExportedComponents ast) fn)
          (collectImportMap ast)).effects := rfl
  have hcb : (mappingOnAst ast src fn).callbacks
      = (analyzeComponentBody ast
          (pickPrimaryComponent (collectExportedComponents ast) fn)
          (collectImportMap ast)).callbacks := rfl
  have hjsx : (mappingOnAst ast src fn).jsxNodes
      = (analyzeComponentBody ast
          (pickPrimaryComponent (collectExportedComponents ast) fn)
          (collectImportMap ast)).jsxNodes := rfl
  rw [hcomp, hhooks, heff, hcb, hjsx, h, hb]
  exact ⟨rfl, rfl, rfl, rfl, rfl, rfl⟩

/-- C8: the primary component is chosen with this exact priority:
the default export name if present; else the sole named export when
exactly one exists; else a named export equal to the file name's base
(extension stripped) when a hint is given; else the first named
export; else `null` — and in the `null` case a fact model with empty
record lists (and empty error list) is still returned.  The two
truthiness side conditions only rule out empty-string names, which no
parsed file produces. -/
theorem primary_component_selection (info : ExportInfo)
    (fileName : Option String)
    (hd : ∀ d, info.defaultExport = some d → d ≠ "")
    (hf : fileName ≠ some "") :
    (∀ ast src fn, (mappingOnAst ast src fn).componentName
      = pickPrimaryComponent (collectExportedComponents ast) fn) ∧
    (∀ d, info.defaultExport = some d →
      pickPrimaryComponent info fileName = some d) ∧
    (info.defaultExport = none → ∀ n, info.namedExports = [n] →
      pickPrimaryComponent info fileName = some n) ∧
    (info.defaultExport = none → info.namedExports.length ≠ 1 →
      ∀ f, fileName = some f → stripExt f ∈ info.namedExports →
        pickPrimaryComponent info fileName = some (stripExt f)) ∧
    (info.defaultExport = none → info.namedExports.length ≠ 1 →
      (∀ f, fileName = some f → stripExt f ∉ info.namedExports) →
      pickPrimaryComponent info fileName = info.namedExports.head?) ∧
    (info.defaultExport = none → info.namedExports = [] →
      pickPrimaryComponent info fileName = none) ∧
    (∀ ast src fn,
      pickPrimaryComponent (collectExportedComponents ast) fn = none →
      (mappingOnAst ast src fn).componentName = none ∧
      (mappingOnAst ast src fn).hooks = [] ∧
      (mappingOnAst ast src fn).effects = [] ∧
      (mappingOnAst ast src fn).callbacks = [] ∧
      (mappingOnAst ast src fn).jsxNodes = [] ∧
      (mappingOnAst ast src fn).errors = []) := by
  refine ⟨fun _ _ _ => rfl, ?_, ?_, ?_, ?_, ?_,
    fun ast src fn h => mappingOnAst_no_primary ast src fn h⟩
  · intro d hdef
    have hne := strNe_data_ne d (hd d hdef)
    simp [pickPrimaryComponent, hdef, truthyOpt, hne]
  · intro hnone n hn
    simp [pickPrimaryComponent, hnone, truthyOpt, hn]
  · intro hnone hlen f hfn hmem
    have hne : f.data ≠ [] := by
      apply strNe_data_ne
      intro hfe
      exact hf (hfe ▸ hfn)
    have hfind : info.namedExports.find? (fun nm => nm == stripExt f)
        = some (stripExt f) := by
      have h1 : (info.namedExports.find?
          (fun nm => nm == stripExt f)).isSome := by
        rw [List.find?_isSome]
        exact ⟨stripExt f, hmem, by simp⟩
      obtain ⟨y, hy⟩ := Option.isSome_iff_exists.1 h1
      have := List.find?_some hy
      simp at this
      rw [hy, this]
    simp [pickPrimaryComponent, hnone, truthyOpt, hlen, hfn, hne, hfind]
  · intro hnone hlen hnomem
    cases fileName with
    | none => simp [pickPrimaryComponent, hnone, truthyOpt, hlen]
    | some f =>
      have hfind : info.namedExports.find?
          (fun nm => nm == stripExt f) = none := by
        rw [List.find?_eq_none]
        intro x hx
        simp
        intro hxeq
        exact hnomem f rfl (hxeq ▸ hx)
      by_cases hne : f.data = []
      · simp [pickPrimaryComponent, hnone, truthyOpt, hlen, hne]
      · simp [pickPrimaryComponent, hnone, truthyOpt, hlen, hne, hfind]
  · intro hnone hempty
    cases fileName with
    | none => simp [pickPrimaryComponent, hnone, truthyOpt, hempty]
    | some f => simp [pickPrimaryComponent, hnone, truthyOpt, hempty]

theorem primary_component_selection_witness :
    pickPrimaryComponent ⟨some "Foo", ["A", "B"]⟩ (some "B.tsx")
      = some "Foo" ∧
    (mappingOnAst ([] : Ast) "" none).componentName = none ∧
    (mappingOnAst ([] : Ast) "" none).hooks = [] ∧
    (mappingOnAst ([] : Ast) "" none).jsxNodes = [] := by
  have h := primary_component_selection ⟨some "Foo", ["A", "B"]⟩
    (some "B.tsx") (by intro d hd; cases hd; decide) (by decide)
  have hdeg := h.2.2.2.2.2.2 ([] : Ast) "" none (by decide)
  exact ⟨h.2.1 "Foo" rfl, hdeg.1, hdeg.2.1, hdeg.2.2.2.2.1⟩

/-! ## C4: the recursive element-tree row packer -/


theorem sumRows_cons (t : ETree) (ts : List ETree) :
    sumRows (t :: ts) = rowsOf t + sumRows ts := rfl

theorem rowsOf_pos (t : ETree) : 1 ≤ rowsOf t := by
  cases t with
  | mk id cs =>
    cases cs with
    | nil => simp [rowsOf]
    | cons c rest => simp [rowsOf]

mutual

theorem layoutSubtree_spec (baseX : Nat) (t : ETree) (d r : Nat) :
    layoutSubtree baseX t d r = (specPositions baseX t d r, rowsOf t) := by
  cases t with
  | mk id cs =>
    cases cs with
    | nil => rfl
    | cons c rest =>
      have h1 := layoutSubtree_spec baseX c (d + 1) r
      have h2 := layoutSiblings_spec baseX rest (d + 1) (r + rowsOf c)
      show ((id, baseX + d * 160, 80 + r * 40) ::
          (layoutSubtree baseX c (d + 1) r).1 ++
            (layoutSiblings baseX rest (d + 1)
              (r + (layoutSubtree baseX c (d + 1) r).2)).1,
          max 1 ((layoutSiblings baseX rest (d + 1)
              (r + (layoutSubtree baseX c (d + 1) r).2)).2 - r)) = _
      rw [h1]
      simp only
      rw [h2]
      simp only [specPositions, specChildren, rowsOf, Prod.mk.injEq]
      constructor
      · rfl
      · omega

theorem layoutSiblings_spec (baseX : Nat) (ts : List ETree) (d cur : Nat) :
    layoutSiblings baseX ts d cur
      = (specChildren baseX ts d cur, cur + sumRows ts) := by
  cases ts with
  | nil => rfl
  | cons t rest =>
    have h1 := layoutSubtree_spec baseX t d cur
    have h2 := layoutSiblings_spec baseX rest d (cur + rowsOf t)
    show ((layoutSubtree baseX t d cur).1 ++
        (layoutSiblings baseX rest d
          (cur + (layoutSubtree baseX t d cur).2)).1,
        (layoutSiblings baseX rest d
          (cur + (layoutSubtree baseX t d cur).2)).2) = _
    rw [h1]
    simp only
    rw [h2]
    simp only [specChildren, sumRows, Prod.mk.injEq]
    refine ⟨by trivial, by omega⟩

end

theorem layoutRoots_spec (baseX : Nat) (roots : List ETree) (cur : Nat) :
    layoutRoots baseX roots cur
      = (specRoots baseX roots cur, cur + sumRows roots) := by
  induction roots generalizing cur with
  | nil => rfl
  | cons t rest ih =>
    show ((layoutSubtree baseX t 0 cur).1 ++
        (layoutRoots baseX rest (cur + (layoutSubtree baseX t 0 cur).2)).1,
        (layoutRoots baseX rest (cur + (layoutSubtree baseX t 0 cur).2)).2) = _
    rw [layoutSubtree_spec baseX t 0 cur]
    simp only
    rw [ih (cur + rowsOf t)]
    simp only [specRoots, sumRows, Prod.mk.injEq]
    refine ⟨by trivial, by omega⟩

theorem rowOfPos_mk (id : String) (x r : Nat) :
    rowOfPos (id, x, 80 + r * 40) = r := by
  show (80 + r * 40 - 80) / 40 = r
  omega

mutual

theorem specPositions_fold (baseX : Nat) (t : ETree) (d r a : Nat) :
    (specPositions baseX t d r).foldl (fun acc p => max acc (rowOfPos p)) a
      = max a (r + rowsOf t - 1) := by
  cases t with
  | mk id cs =>
    cases cs with
    | nil =>
      simp only [specPositions, specChildren, List.foldl_cons, List.foldl_nil,
        rowOfPos_mk, rowsOf]
      omega
    | cons c rest =>
      simp only [specPositions, specChildren, List.foldl_cons,
        List.foldl_append, rowOfPos_mk]
      rw [specPositions_fold baseX c (d + 1) r (max a r)]
      cases rest with
      | nil =>
        simp only [specChildren, List.foldl_nil, rowsOf, sumRows]
        have := rowsOf_pos c
        omega
      | cons c2 rest2 =>
        rw [specChildren_fold baseX (c2 :: rest2) (d + 1) (r + rowsOf c)
          (max (max a r) (r + rowsOf c - 1)) (by simp)]
        simp only [rowsOf, sumRows]
        have h1 := rowsOf_pos c
        have h2 := rowsOf_pos c2
        omega

theorem specChildren_fold (baseX : Nat) (ts : List ETree) (d row a : Nat)
    (h : ts ≠ []) :
    (specChildren baseX ts d row).foldl (fun acc p => max acc (rowOfPos p)) a
      = max a (row + sumRows ts - 1) := by
  cases ts with
  | nil => exact absurd rfl h
  | cons t rest =>
    simp only [specChildren, List.foldl_append]
    rw [specPositions_fold baseX t d row a]
    cases rest with
    | nil =>
      simp only [specChildren, List.foldl_nil, sumRows]
      omega
    | cons c2 rest2 =>
      rw [specChildren_fold baseX (c2 :: rest2) d (row + rowsOf t)
        (max a (row + rowsOf t - 1)) (by simp)]
      simp only [sumRows]
      have h1 := rowsOf_pos t
      have h2 := rowsOf_pos c2
      omega

end

theorem maxRowOf_specPositions (baseX : Nat) (t : ETree) (d r : Nat) :
    maxRowOf (specPositions baseX t d r) = r + rowsOf t - 1 := by
  show (specPositions baseX t d r).foldl (fun acc p => max acc (rowOfPos p)) 0
    = r + rowsOf t - 1
  rw [specPositions_fold baseX t d r 0]
  have := rowsOf_pos t
  omega

/-- C4: the row-packing contract of `layoutSubtree`/the root loop:
a leaf consumes exactly one row; a node's positions are its own cell
at `(depth, rowStart)` followed by its children, the first child
starting at the node's own row and each later child immediately below
all rows used by its earlier siblings (the `specChildren` recursion);
the node's total row consumption equals the rows spanned by its
subtree below its starting row, floored at one; and each successive
root subtree starts at the row immediately following the previous
root's total consumption (the `specRoots` recursion), the final cursor
being the total of all root consumptions. -/
theorem layout_row_packing (baseX : Nat) (t : ETree) (d r : Nat)
    (id : String) (roots : List ETree) (cur : Nat) :
    layoutSubtree baseX (.mk id []) d r
        = ([(id, baseX + d * 160, 80 + r * 40)], 1) ∧
    layoutSubtree baseX t d r = (specPositions baseX t d r, rowsOf t) ∧
    (∀ cs, specPositions baseX (.mk id cs) d r
        = (id, baseX + d * 160, 80 + r * 40)
            :: specChildren baseX cs (d + 1) r) ∧
    (∀ c rest, specChildren baseX (c :: rest) d r
        = specPositions baseX c d r
            ++ specChildren baseX rest d (r + rowsOf c)) ∧
    (layoutSubtree baseX t d r).2
        = max 1 (maxRowOf (layoutSubtree baseX t d r).1 + 1 - r) ∧
    layoutRoots baseX roots cur
        = (specRoots baseX roots cur, cur + sumRows roots) ∧
    (∀ rt rrest, specRoots baseX (rt :: rrest) cur
        = specPositions baseX rt 0 cur
            ++ specRoots baseX rrest (cur + rowsOf rt)) := by
  refine ⟨rfl, layoutSubtree_spec baseX t d r, fun cs => rfl,
    fun c rest => rfl, ?_, layoutRoots_spec baseX roots cur,
    fun rt rrest => rfl⟩
  rw [layoutSubtree_spec baseX t d r]
  simp only
  rw [maxRowOf_specPositions baseX t d r]
  have := rowsOf_pos t
  omega


/-! ## C3: edge-id uniqueness and endpoint validity of the graph builder

The builder never checks ids for duplicates, so uniqueness has to come
from the shape of the id templates.  Each edge id is parsed back into a
signature (family tag, the two endpoint record numbers, the label text);
the parser is a function of the id string alone, so distinct signatures
force distinct ids. -/

/-! Machinery for C3: a parser recovering, from each edge-id string, the
family tag, the two endpoint numbers and the trailing name. -/

theorem natStr_data (n : Nat) : (natStr n).data = natDigits n := rfl

def readDigits (s : List Char) : Option (Nat × List Char) :=
  let d := s.takeWhile (·.isDigit)
  if d.isEmpty then none else some (digitsVal d, s.drop d.length)

def stripPre (pre s : List Char) : Option (List Char) :=
  if pre.isPrefixOf s then some (s.drop pre.length) else none

def parseFam (pre midTail : List Char) (tl : Bool) (s : List Char) :
    Option (Nat × Nat × List Char) :=
  (stripPre pre s).bind fun r1 =>
  (readDigits r1).bind fun kr =>
  (stripPre ('-' :: midTail) kr.2).bind fun r3 =>
  (readDigits r3).bind fun mr =>
  match tl, mr.2 with
  | true, '-' :: name => some (kr.1, mr.1, name)
  | false, [] => some (kr.1, mr.1, ([] : List Char))
  | _, _ => none

theorem isPrefixOf_eq_true_iff (a b : List Char) :
    a.isPrefixOf b = true ↔ a <+: b := List.isPrefixOf_iff_prefix

theorem stripPre_append (pre rest : List Char) :
    stripPre pre (pre ++ rest) = some rest := by
  unfold stripPre
  rw [if_pos, List.drop_left]
  rw [isPrefixOf_eq_true_iff]
  exact ⟨rest, rfl⟩

theorem takeWhile_digits_append (l t : List Char)
    (hl : ∀ c ∈ l, c.isDigit = true)
    (ht : ∀ c, t.head? = some c → c.isDigit = false) :
    (l ++ t).takeWhile (·.isDigit) = l := by
  induction l with
  | nil =>
    cases t with
    | nil => rfl
    | cons c cs =>
      simp [List.takeWhile, ht c rfl]
  | cons x xs ih =>
    simp only [List.cons_append, List.takeWhile]
    rw [hl x (by simp)]
    simp only [List.cons.injEq, true_and]
    exact ih (fun c hc => hl c (by simp [hc]))

theorem readDigits_append (k : Nat) (t : List Char)
    (ht : ∀ c, t.head? = some c → c.isDigit = false) :
    readDigits (natDigits k ++ t) = some (k, t) := by
  unfold readDigits
  simp only
  rw [takeWhile_digits_append (natDigits k) t (natDigits_all_digit k) ht]
  rw [if_neg (by simp [List.isEmpty_iff, natDigits_ne_nil k])]
  rw [digitsVal_natDigits, List.drop_left]

theorem parseFam_correct_t (pre mt : List Char) (k m : Nat) (name : List Char) :
    parseFam pre mt true
      (pre ++ (natDigits k ++ ('-' :: (mt ++ (natDigits m ++ ('-' :: name))))))
      = some (k, m, name) := by
  unfold parseFam
  rw [stripPre_append, Option.some_bind]
  rw [readDigits_append k _ (by intro c hc; simp at hc; rw [← hc]; decide),
    Option.some_bind]
  rw [show ('-' :: (mt ++ (natDigits m ++ ('-' :: name))))
      = ('-' :: mt) ++ (natDigits m ++ ('-' :: name)) from rfl]
  rw [stripPre_append, Option.some_bind]
  rw [readDigits_append m ('-' :: name)
      (by intro c hc; simp at hc; rw [← hc]; decide),
    Option.some_bind]
  rfl

theorem parseFam_correct_f (pre mt : List Char) (k m : Nat) :
    parseFam pre mt false
      (pre ++ (natDigits k ++ ('-' :: (mt ++ natDigits m))))
      = some (k, m, []) := by
  unfold parseFam
  rw [stripPre_append, Option.some_bind]
  rw [readDigits_append k _ (by intro c hc; simp at hc; rw [← hc]; decide),
    Option.some_bind]
  rw [show ('-' :: (mt ++ natDigits m)) = ('-' :: mt) ++ natDigits m from rfl]
  rw [stripPre_append, Option.some_bind]
  have h0 : readDigits (natDigits m) = some (m, []) := by
    have h1 := readDigits_append m [] (by intro c hc; simp at hc)
    rwa [List.append_nil] at h1
  rw [h0, Option.some_bind]

theorem isPrefixOf_append_self (a t : List Char) :
    a.isPrefixOf (a ++ t) = true := by
  rw [isPrefixOf_eq_true_iff]
  exact ⟨t, rfl⟩

theorem dispatch_ne (a b t : List Char) (h13 : 13 ≤ b.length)
    (hne : ¬ (List.take 13 a <+: List.take 13 b)) :
    a.isPrefixOf (b ++ t) = false := by
  rw [Bool.eq_false_iff]
  intro h
  rw [isPrefixOf_eq_true_iff] at h
  have h2 := h.take 13
  rw [List.take_append_of_le_length h13] at h2
  exact hne h2

/-- The edge-id signature: family tag, two endpoint numbers, label
characters, recovered from the id string alone. -/
def sigOf (s : String) : Option (Nat × Nat × Nat × List Char) :=
  let d := s.data
  if "dep-state-hook-".data.isPrefixOf d then
    (parseFam "dep-state-hook-".data "effect-effect-".data true d).map
      fun p => (0, p.1, p.2.1, p.2.2)
  else if "dep-ref-independent-hook-".data.isPrefixOf d then
    (parseFam "dep-ref-independent-hook-".data "effect-effect-".data true d).map
      fun p => (1, p.1, p.2.1, p.2.2)
  else if "mut-effect-effect-".data.isPrefixOf d then
    (parseFam "mut-effect-effect-".data "state-hook-".data true d).map
      fun p => (2, p.1, p.2.1, p.2.2)
  else if "mut-ref-effect-effect-".data.isPrefixOf d then
    (parseFam "mut-ref-effect-effect-".data "independent-hook-".data true d).map
      fun p => (3, p.1, p.2.1, p.2.2)
  else if "cb-mut-effect-callback-".data.isPrefixOf d then
    (parseFam "cb-mut-effect-callback-".data "state-hook-".data true d).map
      fun p => (4, p.1, p.2.1, p.2.2)
  else if "jsx-ref-attr-jsx-jsx-".data.isPrefixOf d then
    (parseFam "jsx-ref-attr-jsx-jsx-".data "independent-hook-".data true d).map
      fun p => (5, p.1, p.2.1, p.2.2)
  else if "jsx-ref-prop-independent-hook-".data.isPrefixOf d then
    (parseFam "jsx-ref-prop-independent-hook-".data "jsx-jsx-".data true d).map
      fun p => (6, p.1, p.2.1, p.2.2)
  else if "jsx-prop-state-hook-".data.isPrefixOf d then
    (parseFam "jsx-prop-state-hook-".data "jsx-jsx-".data true d).map
      fun p => (7, p.1, p.2.1, p.2.2)
  else if "jsx-tree-jsx-jsx-".data.isPrefixOf d then
    (parseFam "jsx-tree-jsx-jsx-".data "jsx-jsx-".data false d).map
      fun p => (8, p.1, p.2.1, p.2.2)
  else none

theorem dataLit0 : ("dep-" : String).data = ['d', 'e', 'p', '-'] := rfl
theorem dataLit1 : ("dep-ref-" : String).data = ['d', 'e', 'p', '-', 'r', 'e', 'f', '-'] := rfl
theorem dataLit2 : ("mut-" : String).data = ['m', 'u', 't', '-'] := rfl
theorem dataLit3 : ("mut-ref-" : String).data = ['m', 'u', 't', '-', 'r', 'e', 'f', '-'] := rfl
theorem dataLit4 : ("cb-mut-" : String).data = ['c', 'b', '-', 'm', 'u', 't', '-'] := rfl
theorem dataLit5 : ("jsx-ref-attr-" : String).data = ['j', 's', 'x', '-', 'r', 'e', 'f', '-', 'a', 't', 't', 'r', '-'] := rfl
theorem dataLit6 : ("jsx-ref-prop-" : String).data = ['j', 's', 'x', '-', 'r', 'e', 'f', '-', 'p', 'r', 'o', 'p', '-'] := rfl
theorem dataLit7 : ("jsx-prop-" : String).data = ['j', 's', 'x', '-', 'p', 'r', 'o', 'p', '-'] := rfl
theorem dataLit8 : ("jsx-tree-" : String).data = ['j', 's', 'x', '-', 't', 'r', 'e', 'e', '-'] := rfl
theorem dataLit9 : ("-" : String).data = ['-'] := rfl
theorem dataLit10 : ("state" : String).data = ['s', 't', 'a', 't', 'e'] := rfl
theorem dataLit11 : ("independent" : String).data = ['i', 'n', 'd', 'e', 'p', 'e', 'n', 'd', 'e', 'n', 't'] := rfl
theorem dataLit12 : ("effect" : String).data = ['e', 'f', 'f', 'e', 'c', 't'] := rfl
theorem dataLit13 : ("jsx" : String).data = ['j', 's', 'x'] := rfl
theorem dataLit14 : ("hook-" : String).data = ['h', 'o', 'o', 'k', '-'] := rfl
theorem dataLit15 : ("effect-" : String).data = ['e', 'f', 'f', 'e', 'c', 't', '-'] := rfl
theorem dataLit16 : ("callback-" : String).data = ['c', 'a', 'l', 'l', 'b', 'a', 'c', 'k', '-'] := rfl
theorem dataLit17 : ("jsx-" : String).data = ['j', 's', 'x', '-'] := rfl
theorem dataLit18 : ("dep-state-hook-" : String).data = ['d', 'e', 'p', '-', 's', 't', 'a', 't', 'e', '-', 'h', 'o', 'o', 'k', '-'] := rfl
theorem dataLit19 : ("dep-ref-independent-hook-" : String).data = ['d', 'e', 'p', '-', 'r', 'e', 'f', '-', 'i', 'n', 'd', 'e', 'p', 'e', 'n', 'd', 'e', 'n', 't', '-', 'h', 'o', 'o', 'k', '-'] := rfl
theorem dataLit20 : ("mut-effect-effect-" : String).data = ['m', 'u', 't', '-', 'e', 'f', 'f', 'e', 'c', 't', '-', 'e', 'f', 'f', 'e', 'c', 't', '-'] := rfl
theorem dataLit21 : ("mut-ref-effect-effect-" : String).data = ['m', 'u', 't', '-', 'r', 'e', 'f', '-', 'e', 'f', 'f', 'e', 'c', 't', '-', 'e', 'f', 'f', 'e', 'c', 't', '-'] := rfl
theorem dataLit22 : ("cb-mut-effect-callback-" : String).data = ['c', 'b', '-', 'm', 'u', 't', '-', 'e', 'f', 'f', 'e', 'c', 't', '-', 'c', 'a', 'l', 'l', 'b', 'a', 'c', 'k', '-'] := rfl
theorem dataLit23 : ("jsx-ref-attr-jsx-jsx-" : String).data = ['j', 's', 'x', '-', 'r', 'e', 'f', '-', 'a', 't', 't', 'r', '-', 'j', 's', 'x', '-', 'j', 's', 'x', '-'] := rfl
theorem dataLit24 : ("jsx-ref-prop-independent-hook-" : String).data = ['j', 's', 'x', '-', 'r', 'e', 'f', '-', 'p', 'r', 'o', 'p', '-', 'i', 'n', 'd', 'e', 'p', 'e', 'n', 'd', 'e', 'n', 't', '-', 'h', 'o', 'o', 'k', '-'] := rfl
theorem dataLit25 : ("jsx-prop-state-hook-" : String).data = ['j', 's', 'x', '-', 'p', 'r', 'o', 'p', '-', 's', 't', 'a', 't', 'e', '-', 'h', 'o', 'o', 'k', '-'] := rfl
theorem dataLit26 : ("jsx-tree-jsx-jsx-" : String).data = ['j', 's', 'x', '-', 't', 'r', 'e', 'e', '-', 'j', 's', 'x', '-', 'j', 's', 'x', '-'] := rfl
theorem dataLit27 : ("effect-effect-" : String).data = ['e', 'f', 'f', 'e', 'c', 't', '-', 'e', 'f', 'f', 'e', 'c', 't', '-'] := rfl
theorem dataLit28 : ("state-hook-" : String).data = ['s', 't', 'a', 't', 'e', '-', 'h', 'o', 'o', 'k', '-'] := rfl
theorem dataLit29 : ("independent-hook-" : String).data = ['i', 'n', 'd', 'e', 'p', 'e', 'n', 'd', 'e', 'n', 't', '-', 'h', 'o', 'o', 'k', '-'] := rfl
theorem dataLit30 : ("jsx-jsx-" : String).data = ['j', 's', 'x', '-', 'j', 's', 'x', '-'] := rfl

theorem dataLit31 : ("effect-callback-" : String).data = ['e', 'f', 'f', 'e', 'c', 't', '-', 'c', 'a', 'l', 'l', 'b', 'a', 'c', 'k', '-'] := rfl

theorem sigOf_fam0 (j i : Nat) (name : String) :
    sigOf ("dep-" ++ ("state-hook-" ++ natStr j) ++ "-" ++ ("effect-effect-" ++ natStr i) ++ "-" ++ name)
      = some (0, j, i, name.data) := by
  have hd : ("dep-" ++ ("state-hook-" ++ natStr j) ++ "-" ++ ("effect-effect-" ++ natStr i) ++ "-" ++ name).data
      = "dep-state-hook-".data ++ (natDigits j ++ ('-' ::
          ("effect-effect-".data ++ (natDigits i ++ ('-' :: name.data))))) := by
    simp only [String.data_append, natStr_data, dataLit0, dataLit1, dataLit2, dataLit3, dataLit4, dataLit5, dataLit6, dataLit7, dataLit8, dataLit9, dataLit10, dataLit11, dataLit12, dataLit13, dataLit14, dataLit15, dataLit16, dataLit17, dataLit18, dataLit19, dataLit20, dataLit21, dataLit22, dataLit23, dataLit24, dataLit25, dataLit26, dataLit27, dataLit28, dataLit29, dataLit30, dataLit31,
      List.cons_append, List.nil_append, List.append_assoc]
  unfold sigOf
  simp only
  rw [hd]
  rw [if_pos (by rw [isPrefixOf_append_self])]
  rw [parseFam_correct_t]
  rfl

theorem sigOf_fam1 (j i : Nat) (name : String) :
    sigOf ("dep-ref-" ++ ("independent-hook-" ++ natStr j) ++ "-" ++ ("effect-effect-" ++ natStr i) ++ "-" ++ name)
      = some (1, j, i, name.data) := by
  have hd : ("dep-ref-" ++ ("independent-hook-" ++ natStr j) ++ "-" ++ ("effect-effect-" ++ natStr i) ++ "-" ++ name).data
      = "dep-ref-independent-hook-".data ++ (natDigits j ++ ('-' ::
          ("effect-effect-".data ++ (natDigits i ++ ('-' :: name.data))))) := by
    simp only [String.data_append, natStr_data, dataLit0, dataLit1, dataLit2, dataLit3, dataLit4, dataLit5, dataLit6, dataLit7, dataLit8, dataLit9, dataLit10, dataLit11, dataLit12, dataLit13, dataLit14, dataLit15, dataLit16, dataLit17, dataLit18, dataLit19, dataLit20, dataLit21, dataLit22, dataLit23, dataLit24, dataLit25, dataLit26, dataLit27, dataLit28, dataLit29, dataLit30, dataLit31,
      List.cons_append, List.nil_append, List.append_assoc]
  unfold sigOf
  simp only
  rw [hd]
  rw [if_neg (by rw [dispatch_ne _ _ _ (by decide) (by decide)]; decide)]
  rw [if_pos (by rw [isPrefixOf_append_self])]
  rw [parseFam_correct_t]
  rfl

theorem sigOf_fam2 (i j : Nat) (name : String) :
    sigOf ("mut-" ++ ("effect-effect-" ++ natStr i) ++ "-" ++ ("state-hook-" ++ natStr j) ++ "-" ++ name)
      = some (2, i, j, name.data) := by
  have hd : ("mut-" ++ ("effect-effect-" ++ natStr i) ++ "-" ++ ("state-hook-" ++ natStr j) ++ "-" ++ name).data
      = "mut-effect-effect-".data ++ (natDigits i ++ ('-' ::
          ("state-hook-".data ++ (natDigits j ++ ('-' :: name.data))))) := by
    simp only [String.data_append, natStr_data, dataLit0, dataLit1, dataLit2, dataLit3, dataLit4, dataLit5, dataLit6, dataLit7, dataLit8, dataLit9, dataLit10, dataLit11, dataLit12, dataLit13, dataLit14, dataLit15, dataLit16, dataLit17, dataLit18, dataLit19, dataLit20, dataLit21, dataLit22, dataLit23, dataLit24, dataLit25, dataLit26, dataLit27, dataLit28, dataLit29, dataLit30, dataLit31,
      List.cons_append, List.nil_append, List.append_assoc]
  unfold sigOf
  simp only
  rw [hd]
  rw [if_neg (by rw [dispatch_ne _ _ _ (by decide) (by decide)]; decide)]
  rw [if_neg (by rw [dispatch_ne _ _ _ (by decide) (by decide)]; decide)]
  rw [if_pos (by rw [isPrefixOf_append_self])]
  rw [parseFam_correct_t]
  rfl

theorem sigOf_fam3 (i j : Nat) (name : String) :
    sigOf ("mut-ref-" ++ ("effect-effect-" ++ natStr i) ++ "-" ++ ("independent-hook-" ++ natStr j) ++ "-" ++ name)
      = some (3, i, j, name.data) := by
  have hd : ("mut-ref-" ++ ("effect-effect-" ++ natStr i) ++ "-" ++ ("independent-hook-" ++ natStr j) ++ "-" ++ name).data
      = "mut-ref-effect-effect-".data ++ (natDigits i ++ ('-' ::
          ("independent-hook-".data ++ (natDigits j ++ ('-' :: name.data))))) := by
    simp only [String.data_append, natStr_data, dataLit0, dataLit1, dataLit2, dataLit3, dataLit4, dataLit5, dataLit6, dataLit7, dataLit8, dataLit9, dataLit10, dataLit11, dataLit12, dataLit13, dataLit14, dataLit15, dataLit16, dataLit17, dataLit18, dataLit19, dataLit20, dataLit21, dataLit22, dataLit23, dataLit24, dataLit25, dataLit26, dataLit27, dataLit28, dataLit29, dataLit30, dataLit31,
      List.cons_append, List.nil_append, List.append_assoc]
  unfold sigOf
  simp only
  rw [hd]
  rw [if_neg (by rw [dispatch_ne _ _ _ (by decide) (by decide)]; decide)]
  rw [if_neg (by rw [dispatch_ne _ _ _ (by decide) (by decide)]; decide)]
  rw [if_neg (by rw [dispatch_ne _ _ _ (by decide) (by decide)]; decide)]
  rw [if_pos (by rw [isPrefixOf_append_self])]
  rw [parseFam_correct_t]
  rfl

theorem sigOf_fam4 (i j : Nat) (name : String) :
    sigOf ("cb-mut-" ++ ("effect-callback-" ++ natStr i) ++ "-" ++ ("state-hook-" ++ natStr j) ++ "-" ++ name)
      = some (4, i, j, name.data) := by
  have hd : ("cb-mut-" ++ ("effect-callback-" ++ natStr i) ++ "-" ++ ("state-hook-" ++ natStr j) ++ "-" ++ name).data
      = "cb-mut-effect-callback-".data ++ (natDigits i ++ ('-' ::
          ("state-hook-".data ++ (natDigits j ++ ('-' :: name.data))))) := by
    simp only [String.data_append, natStr_data, dataLit0, dataLit1, dataLit2, dataLit3, dataLit4, dataLit5, dataLit6, dataLit7, dataLit8, dataLit9, dataLit10, dataLit11, dataLit12, dataLit13, dataLit14, dataLit15, dataLit16, dataLit17, dataLit18, dataLit19, dataLit20, dataLit21, dataLit22, dataLit23, dataLit24, dataLit25, dataLit26, dataLit27, dataLit28, dataLit29, dataLit30, dataLit31,
      List.cons_append, List.nil_append, List.append_assoc]
  unfold sigOf
  simp only
  rw [hd]
  rw [if_neg (by rw [dispatch_ne _ _ _ (by decide) (by decide)]; decide)]
  rw [if_neg (by rw [dispatch_ne _ _ _ (by decide) (by decide)]; decide)]
  rw [if_neg (by rw [dispatch_ne _ _ _ (by decide) (by decide)]; decide)]
  rw [if_neg (by rw [dispatch_ne _ _ _ (by decide) (by decide)]; decide)]
  rw [if_pos (by rw [isPrefixOf_append_self])]
  rw [parseFam_correct_t]
  rfl

theorem sigOf_fam5 (n j : Nat) (name : String) :
    sigOf ("jsx-ref-attr-" ++ ("jsx-jsx-" ++ natStr n) ++ "-" ++ ("independent-hook-" ++ natStr j) ++ "-" ++ name)
      = some (5, n, j, name.data) := by
  have hd : ("jsx-ref-attr-" ++ ("jsx-jsx-" ++ natStr n) ++ "-" ++ ("independent-hook-" ++ natStr j) ++ "-" ++ name).data
      = "jsx-ref-attr-jsx-jsx-".data ++ (natDigits n ++ ('-' ::
          ("independent-hook-".data ++ (natDigits j ++ ('-' :: name.data))))) := by
    simp only [String.data_append, natStr_data, dataLit0, dataLit1, dataLit2, dataLit3, dataLit4, dataLit5, dataLit6, dataLit7, dataLit8, dataLit9, dataLit10, dataLit11, dataLit12, dataLit13, dataLit14, dataLit15, dataLit16, dataLit17, dataLit18, dataLit19, dataLit20, dataLit21, dataLit22, dataLit23, dataLit24, dataLit25, dataLit26, dataLit27, dataLit28, dataLit29, dataLit30, dataLit31,
      List.cons_append, List.nil_append, List.append_assoc]
  unfold sigOf
  simp only
  rw [hd]
  rw [if_neg (by rw [dispatch_ne _ _ _ (by decide) (by decide)]; decide)]
  rw [if_neg (by rw [dispatch_ne _ _ _ (by decide) (by decide)]; decide)]
  rw [if_neg (by rw [dispatch_ne _ _ _ (by decide) (by decide)]; decide)]
  rw [if_neg (by rw [dispatch_ne _ _ _ (by decide) (by decide)]; decide)]
  rw [if_neg (by rw [dispatch_ne _ _ _ (by decide) (by decide)]; decide)]
  rw [if_pos (by rw [isPrefixOf_append_self])]
  rw [parseFam_correct_t]
  rfl

theorem sigOf_fam6 (j n : Nat) (name : String) :
    sigOf ("jsx-ref-prop-" ++ ("independent-hook-" ++ natStr j) ++ "-" ++ ("jsx-jsx-" ++ natStr n) ++ "-" ++ name)
      = some (6, j, n, name.data) := by
  have hd : ("jsx-ref-prop-" ++ ("independent-hook-" ++ natStr j) ++ "-" ++ ("jsx-jsx-" ++ natStr n) ++ "-" ++ name).data
      = "jsx-ref-prop-independent-hook-".data ++ (natDigits j ++ ('-' ::
          ("jsx-jsx-".data ++ (natDigits n ++ ('-' :: name.data))))) := by
    simp only [String.data_append, natStr_data, dataLit0, dataLit1, dataLit2, dataLit3, dataLit4, dataLit5, dataLit6, dataLit7, dataLit8, dataLit9, dataLit10, dataLit11, dataLit12, dataLit13, dataLit14, dataLit15, dataLit16, dataLit17, dataLit18, dataLit19, dataLit20, dataLit21, dataLit22, dataLit23, dataLit24, dataLit25, dataLit26, dataLit27, dataLit28, dataLit29, dataLit30, dataLit31,
      List.cons_append, List.nil_append, List.append_assoc]
  unfold sigOf
  simp only
  rw [hd]
  rw [if_neg (by rw [dispatch_ne _ _ _ (by decide) (by decide)]; decide)]
  rw [if_neg (by rw [dispatch_ne _ _ _ (by decide) (by decide)]; decide)]
  rw [if_neg (by rw [dispatch_ne _ _ _ (by decide) (by decide)]; decide)]
  rw [if_neg (by rw [dispatch_ne _ _ _ (by decide) (by decide)]; decide)]
  rw [if_neg (by rw [dispatch_ne _ _ _ (by decide) (by decide)]; decide)]
  rw [if_neg (by rw [dispatch_ne _ _ _ (by decide) (by decide)]; decide)]
  rw [if_pos (by rw [isPrefixOf_append_self])]
  rw [parseFam_correct_t]
  rfl

theorem sigOf_fam7 (j n : Nat) (name : String) :
    sigOf ("jsx-prop-" ++ ("state-hook-" ++ natStr j) ++ "-" ++ ("jsx-jsx-" ++ natStr n) ++ "-" ++ name)
      = some (7, j, n, name.data) := by
  have hd : ("jsx-prop-" ++ ("state-hook-" ++ natStr j) ++ "-" ++ ("jsx-jsx-" ++ natStr n) ++ "-" ++ name).data
      = "jsx-prop-state-hook-".data ++ (natDigits j ++ ('-' ::
          ("jsx-jsx-".data ++ (natDigits n ++ ('-' :: name.data))))) := by
    simp only [String.data_append, natStr_data, dataLit0, dataLit1, dataLit2, dataLit3, dataLit4, dataLit5, dataLit6, dataLit7, dataLit8, dataLit9, dataLit10, dataLit11, dataLit12, dataLit13, dataLit14, dataLit15, dataLit16, dataLit17, dataLit18, dataLit19, dataLit20, dataLit21, dataLit22, dataLit23, dataLit24, dataLit25, dataLit26, dataLit27, dataLit28, dataLit29, dataLit30, dataLit31,
      List.cons_append, List.nil_append, List.append_assoc]
  unfold sigOf
  simp only
  rw [hd]
  rw [if_neg (by rw [dispatch_ne _ _ _ (by decide) (by decide)]; decide)]
  rw [if_neg (by rw [dispatch_ne _ _ _ (by decide) (by decide)]; decide)]
  rw [if_neg (by rw [dispatch_ne _ _ _ (by decide) (by decide)]; decide)]
  rw [if_neg (by rw [dispatch_ne _ _ _ (by decide) (by decide)]; decide)]
  rw [if_neg (by rw [dispatch_ne _ _ _ (by decide) (by decide)]; decide)]
  rw [if_neg (by rw [dispatch_ne _ _ _ (by decide) (by decide)]; decide)]
  rw [if_neg (by rw [dispatch_ne _ _ _ (by decide) (by decide)]; decide)]
  rw [if_pos (by rw [isPrefixOf_append_self])]
  rw [parseFam_correct_t]
  rfl

theorem sigOf_fam8 (p c : Nat) :
    sigOf ("jsx-tree-" ++ ("jsx-jsx-" ++ natStr p) ++ "-" ++ ("jsx-jsx-" ++ natStr c))
      = some (8, p, c, []) := by
  have hd : ("jsx-tree-" ++ ("jsx-jsx-" ++ natStr p) ++ "-" ++ ("jsx-jsx-" ++ natStr c)).data
      = "jsx-tree-jsx-jsx-".data ++ (natDigits p ++ ('-' ::
          ("jsx-jsx-".data ++ (natDigits c)))) := by
    simp only [String.data_append, natStr_data, dataLit0, dataLit1, dataLit2, dataLit3, dataLit4, dataLit5, dataLit6, dataLit7, dataLit8, dataLit9, dataLit10, dataLit11, dataLit12, dataLit13, dataLit14, dataLit15, dataLit16, dataLit17, dataLit18, dataLit19, dataLit20, dataLit21, dataLit22, dataLit23, dataLit24, dataLit25, dataLit26, dataLit27, dataLit28, dataLit29, dataLit30, dataLit31,
      List.cons_append, List.nil_append, List.append_assoc]
  unfold sigOf
  simp only
  rw [hd]
  rw [if_neg (by rw [dispatch_ne _ _ _ (by decide) (by decide)]; decide)]
  rw [if_neg (by rw [dispatch_ne _ _ _ (by decide) (by decide)]; decide)]
  rw [if_neg (by rw [dispatch_ne _ _ _ (by decide) (by decide)]; decide)]
  rw [if_neg (by rw [dispatch_ne _ _ _ (by decide) (by decide)]; decide)]
  rw [if_neg (by rw [dispatch_ne _ _ _ (by decide) (by decide)]; decide)]
  rw [if_neg (by rw [dispatch_ne _ _ _ (by decide) (by decide)]; decide)]
  rw [if_neg (by rw [dispatch_ne _ _ _ (by decide) (by decide)]; decide)]
  rw [if_neg (by rw [dispatch_ne _ _ _ (by decide) (by decide)]; decide)]
  rw [if_pos (by rw [isPrefixOf_append_self])]
  rw [parseFam_correct_f]
  rfl

/-! Generic uniqueness helpers. -/

theorem disjoint_of_key {β : Type _} (p : β → Prop) (l1 l2 : List β)
    (h1 : ∀ b ∈ l1, p b) (h2 : ∀ b ∈ l2, ¬ p b) : l1.Disjoint l2 :=
  fun a ha1 ha2 => h2 a ha2 (h1 a ha1)

theorem nodup_flatMap_key {α β κ : Type _} (l : List α) (F : α → List β)
    (g : α → κ) (key : β → κ)
    (hg : (l.map g).Nodup)
    (hmatch : ∀ a ∈ l, ∀ b ∈ F a, key b = g a)
    (hin : ∀ a ∈ l, (F a).Nodup) :
    (l.flatMap F).Nodup := by
  induction l with
  | nil => simp
  | cons a l ih =>
    rw [List.flatMap_cons]
    rw [List.map_cons, List.nodup_cons] at hg
    apply List.Nodup.append (hin a (by simp))
    · exact ih hg.2 (fun a' ha' => hmatch a' (by simp [ha']))
        (fun a' ha' => hin a' (by simp [ha']))
    · intro b hb1 hb2
      rcases List.mem_flatMap.mp hb2 with ⟨a', ha', hba'⟩
      have h1 : key b = g a := hmatch a (by simp) b hb1
      have h2 : key b = g a' := hmatch a' (by simp [ha']) b hba'
      exact hg.1 (List.mem_map.mpr ⟨a', ha', by rw [← h2, h1]⟩)

theorem nodup_filterMap_key {γ β κ : Type _} (l : List γ) (F : γ → Option β)
    (g : γ → κ) (key : β → κ)
    (hg : (l.map g).Nodup)
    (hmatch : ∀ c ∈ l, ∀ b, F c = some b → key b = g c) :
    (l.filterMap F).Nodup := by
  induction l with
  | nil => simp
  | cons c l ih =>
    rw [List.map_cons, List.nodup_cons] at hg
    rw [List.filterMap_cons]
    have htail := ih hg.2 (fun c' hc' => hmatch c' (by simp [hc']))
    rcases hF : F c with _ | b
    · exact htail
    · rw [List.nodup_cons]
      refine ⟨?_, htail⟩
      intro hb
      rcases List.mem_filterMap.mp hb with ⟨c', hc', hFc'⟩
      have h1 : key b = g c := hmatch c (by simp) b hF
      have h2 : key b = g c' := hmatch c' (by simp [hc']) b hFc'
      exact hg.1 (List.mem_map.mpr ⟨c', hc', by rw [← h2, h1]⟩)

theorem nodup_map_congr {β κ1 κ2 : Type _} (l : List β) (f : β → κ1)
    (g : β → κ2) (hf : (l.map f).Nodup)
    (h : ∀ b1 ∈ l, ∀ b2 ∈ l, g b1 = g b2 → f b1 = f b2) :
    (l.map g).Nodup := by
  induction l with
  | nil => simp
  | cons b l ih =>
    rw [List.map_cons, List.nodup_cons] at hf ⊢
    refine ⟨?_, ih hf.2 (fun b1 h1 b2 h2 => h b1 (by simp [h1]) b2 (by simp [h2]))⟩
    intro hgb
    rcases List.mem_map.mp hgb with ⟨b', hb', hgb'⟩
    have : f b = f b' := h b (by simp) b' (by simp [hb']) hgb'.symm
    exact hf.1 (List.mem_map.mpr ⟨b', hb', this.symm⟩)

theorem insertSorted_perm (x : Nat) (l : List Nat) :
    (insertSorted x l).Perm (x :: l) := by
  induction l with
  | nil => exact List.Perm.refl _
  | cons y ys ih =>
    unfold insertSorted
    by_cases h : x ≤ y
    · rw [if_pos h]
    · rw [if_neg h]
      exact (ih.cons y).trans (List.Perm.swap x y ys)

theorem sortNats_perm (l : List Nat) : (sortNats l).Perm l := by
  induction l with
  | nil => exact List.Perm.refl _
  | cons a l ih =>
    show (insertSorted a (sortNats l)).Perm (a :: l)
    exact (insertSorted_perm a (sortNats l)).trans (ih.cons a)

/-! The analyzer's canonical positional record ids. -/

/-- The ids the analyzer itself assigns: `pre-1`, `pre-2`, … in record
order (`pre` already carries the trailing dash). -/
abbrev canonicalIds (pre : String) (ids : List String) : Prop :=
  ids = (List.range ids.length).map (fun i => pre ++ natStr (i + 1))

theorem canonical_shape (pre : String) (ids : List String)
    (h : canonicalIds pre ids) : ∀ s ∈ ids, ∃ j, s = pre ++ natStr j := by
  intro s hs
  rw [h] at hs
  rcases List.mem_map.mp hs with ⟨i, _, rfl⟩
  exact ⟨i + 1, rfl⟩

/-- The number read off a canonical id after its literal prefix. -/
def numOf (preLen : Nat) (s : String) : Nat := digitsVal (s.data.drop preLen)

theorem numOf_pre (pre : String) (j : Nat) :
    numOf pre.data.length (pre ++ natStr j) = j := by
  unfold numOf
  rw [String.data_append, natStr_data, List.drop_left, digitsVal_natDigits]

theorem canonical_numOf_nodup (pre : String) (ids : List String)
    (h : canonicalIds pre ids) :
    (ids.map (numOf pre.data.length)).Nodup := by
  rw [h, List.map_map]
  have he : (numOf pre.data.length ∘ fun i => pre ++ natStr (i + 1))
      = fun i => i + 1 := funext fun i => numOf_pre pre (i + 1)
  rw [he]
  exact (List.nodup_range _).map (fun a b hab => by omega)

theorem canonical_nodup (pre : String) (ids : List String)
    (h : canonicalIds pre ids) : ids.Nodup :=
  (canonical_numOf_nodup pre ids h).of_map

/-! Shapes of the column nodes. -/

theorem mapIdx_forall {α β : Type _} (l : List α) (f : Nat → α → β)
    (P : β → Prop) (h : ∀ i a, a ∈ l → P (f i a)) : ∀ b ∈ l.mapIdx f, P b := by
  induction l generalizing f with
  | nil => simp
  | cons a l ih =>
    intro b hb
    rw [List.mapIdx_cons] at hb
    rcases List.mem_cons.mp hb with hb | hb
    · rw [hb]; exact h 0 a (by simp)
    · exact ih (fun i => f (i + 1)) (fun i a' ha' => h (i + 1) a' (by simp [ha'])) b hb

theorem map_mapIdx_const {α β γ : Type _} (l : List α) (f : Nat → α → β)
    (g : β → γ) (g' : α → γ) (h : ∀ i a, g (f i a) = g' a) :
    (l.mapIdx f).map g = l.map g' := by
  induction l generalizing f with
  | nil => simp
  | cons a l ih =>
    rw [List.mapIdx_cons, List.map_cons, List.map_cons, h 0 a,
      ih (fun i => f (i + 1)) (fun i a' => h (i + 1) a')]

theorem mem_layoutColumnNodes (items : List ColumnItem) (kind : GraphNodeKind)
    (x startY gapY : Nat) :
    ∀ nd ∈ layoutColumnNodes items kind x startY gapY,
      ∃ item ∈ items, nd.id = kindStr kind ++ "-" ++ item.id := by
  apply mapIdx_forall
  intro i item hitem
  exact ⟨item, hitem, rfl⟩

theorem flatMap_filter_key_perm {α : Type _} (key : α → Nat) (ds : List Nat)
    (l : List α) (hnd : ds.Nodup) (hall : ∀ a ∈ l, key a ∈ ds) :
    (ds.flatMap fun d => l.filter (fun a => key a == d)).Perm l := by
  induction ds generalizing l with
  | nil =>
    cases l with
    | nil => simp
    | cons a t => exact absurd (hall a (by simp)) (by simp)
  | cons d ds ih =>
    rw [List.nodup_cons] at hnd
    rw [List.flatMap_cons]
    have hstep : (ds.flatMap fun di => l.filter (fun a => key a == di))
        = ds.flatMap fun di =>
            (l.filter (fun a => !(key a == d))).filter (fun a => key a == di) := by
      apply List.flatMap_congr
      intro di hdi
      rw [List.filter_filter]
      apply List.filter_congr
      intro a _
      by_cases hk : key a = di
      · have hdne : di ≠ d := fun hc => hnd.1 (hc ▸ hdi)
        simp [hk, hdne]
      · simp [hk]
    rw [hstep]
    have hperm := ih (l.filter (fun a => !(key a == d))) hnd.2 ?side
    · exact (hperm.append_left _).trans (List.filter_append_perm _ l)
    · intro a ha
      have h1 := List.mem_of_mem_filter ha
      have h2 := List.of_mem_filter ha
      rcases List.mem_cons.mp (hall a h1) with hc | hc
      · exact absurd hc (by simpa using h2)
      · exact hc

theorem mem_buildJsxGraphNodes (colX : ColX) (recs : List AnalyzedJsxNode) :
    ∀ nd ∈ buildJsxGraphNodes colX recs,
      ∃ rec ∈ recs, nd.id = "jsx-" ++ rec.id ∧ nd.meta.props = rec.props ∧
        nd.meta.refProps = rec.refProps ∧ nd.meta.depth = some rec.depth := by
  intro nd hnd
  unfold buildJsxGraphNodes at hnd
  rcases List.mem_flatMap.mp hnd with ⟨d, _, hmem⟩
  refine mapIdx_forall _ _
    (fun nd => ∃ rec ∈ recs, nd.id = "jsx-" ++ rec.id ∧
      nd.meta.props = rec.props ∧ nd.meta.refProps = rec.refProps ∧
      nd.meta.depth = some rec.depth) ?_ nd hmem
  intro i rec hrec
  exact ⟨rec, List.mem_of_mem_filter hrec, rfl, rfl, rfl, rfl⟩

theorem mem_dedupFirst_aux {α : Type _} [DecidableEq α] (l : List α) :
    ∀ acc x, (x ∈ l ∨ x ∈ acc) →
      x ∈ l.foldl (fun acc x => if x ∈ acc then acc else acc ++ [x]) acc := by
  induction l with
  | nil =>
    intro acc x h
    rcases h with h | h
    · cases h
    · exact h
  | cons y ys ih =>
    intro acc x h
    rw [List.foldl_cons]
    apply ih
    rcases h with h | h
    · rcases List.mem_cons.mp h with rfl | h
      · right
        by_cases hy : x ∈ acc
        · simp [hy]
        · simp [hy]
      · left; exact h
    · right
      by_cases hy : y ∈ acc
      · simpa [hy] using h
      · simp [hy, h]

theorem mem_dedupFirst {α : Type _} [DecidableEq α] (l : List α) (x : α)
    (h : x ∈ l) : x ∈ dedupFirst l :=
  mem_dedupFirst_aux l [] x (Or.inl h)

theorem buildJsxGraphNodes_ids (colX : ColX) (recs : List AnalyzedJsxNode) :
    ((buildJsxGraphNodes colX recs).map (·.id)).Perm
      (recs.map (fun rec => "jsx-" ++ rec.id)) := by
  unfold buildJsxGraphNodes
  rw [List.map_flatMap]
  have hstep :
      (sortNats (dedupFirst (recs.map (·.depth)))).flatMap
        (fun d => ((recs.filter (fun it => it.depth == d)).mapIdx fun index item =>
          ({ id := "jsx-" ++ item.id, label := item.component, kind := .jsx,
             x := colX.jsx + d * 160, y := 80 + d * 80 + index * 32,
             width := 120, height := 32,
             meta := { depth := some item.depth, props := item.props,
                       refProps := item.refProps,
                       jsxParentId :=
                         if truthyOpt item.parentId then
                           item.parentId.map ("jsx-" ++ ·)
                         else none } } : GraphNode)).map (·.id))
      = (sortNats (dedupFirst (recs.map (·.depth)))).flatMap
          (fun d => (recs.filter (fun it => it.depth == d)).map
            (fun rec => "jsx-" ++ rec.id)) := by
    apply List.flatMap_congr
    intro d _
    exact map_mapIdx_const _ _ _ _ (fun i a => rfl)
  rw [hstep, ← List.map_flatMap]
  apply List.Perm.map
  apply flatMap_filter_key_perm
  · exact ((sortNats_perm _).symm).nodup (dedupFirst_nodup _)
  · intro a ha
    rw [(sortNats_perm _).mem_iff]
    exact mem_dedupFirst _ _ (List.mem_map.mpr ⟨a, ha, rfl⟩)
/-! Signature slots. -/

def famOf : Option (Nat × Nat × Nat × List Char) → Nat
  | some (f, _, _, _) => f
  | none => 9

def effSlot : Option (Nat × Nat × Nat × List Char) → Nat
  | some (f, k, mN, _) => if f ≤ 1 then mN else k
  | none => 0

def nameSlot : Option (Nat × Nat × Nat × List Char) → List Char
  | some (_, _, _, nm) => nm
  | none => []

def jsxSlot : Option (Nat × Nat × Nat × List Char) → Nat
  | some (f, k, mN, _) => if f = 5 then k else mN
  | none => 0

theorem strData_inj : Function.Injective String.data := by
  intro a b h
  cases a
  cases b
  exact congrArg String.mk h

theorem find?_beq_id (l : List GraphNode) (x : String) (nd : GraphNode)
    (h : l.find? (fun n => n.id == x) = some nd) : nd ∈ l ∧ nd.id = x := by
  refine ⟨List.mem_of_find?_eq_some h, ?_⟩
  have hp := List.find?_some h
  simpa using hp

theorem jsxNodeMapGet_some (jN : List GraphNode) (key : String)
    (nd : GraphNode) (h : jsxNodeMapGet jN key = some nd) :
    nd ∈ jN ∧ stripJsxPre nd.id = key := by
  unfold jsxNodeMapGet at h
  rcases Option.map_eq_some'.mp h with ⟨p, hfind, hp2⟩
  have hmem := List.mem_of_find?_eq_some hfind
  rw [List.mem_reverse] at hmem
  rcases List.mem_map.mp hmem with ⟨nd', hnd', hpair⟩
  have hbeq := List.find?_some hfind
  rw [← hpair] at hbeq hp2
  simp only at hp2
  rw [hp2] at hnd' hbeq
  refine ⟨hnd', ?_⟩
  simpa using hbeq
/-! Signatures of the nine edge constructors, under the canonical node
id shapes. -/

theorem sig_mkDepEdge (effectNode stateNode : GraphNode) (name : String)
    (i j : Nat) (hE : effectNode.id = "effect-effect-" ++ natStr i)
    (hS : stateNode.id = "state-hook-" ++ natStr j) :
    sigOf (mkDepEdge effectNode stateNode name).id = some (0, j, i, name.data) := by
  show sigOf ("dep-" ++ stateNode.id ++ "-" ++ effectNode.id ++ "-" ++ name) = _
  rw [hS, hE, sigOf_fam0]

theorem sig_mkDepRefEdge (effectNode refNode : GraphNode) (name : String)
    (i j : Nat) (hE : effectNode.id = "effect-effect-" ++ natStr i)
    (hR : refNode.id = "independent-hook-" ++ natStr j) :
    sigOf (mkDepRefEdge effectNode refNode name).id = some (1, j, i, name.data) := by
  show sigOf ("dep-ref-" ++ refNode.id ++ "-" ++ effectNode.id ++ "-" ++ name) = _
  rw [hR, hE, sigOf_fam1]

theorem sig_mkMutEdge (effectNode stateNode : GraphNode) (name : String)
    (i j : Nat) (hE : effectNode.id = "effect-effect-" ++ natStr i)
    (hS : stateNode.id = "state-hook-" ++ natStr j) :
    sigOf (mkMutEdge effectNode stateNode name).id = some (2, i, j, name.data) := by
  show sigOf ("mut-" ++ effectNode.id ++ "-" ++ stateNode.id ++ "-" ++ name) = _
  rw [hS, hE, sigOf_fam2]

theorem sig_mkMutRefEdge (effectNode refNode : GraphNode) (name : String)
    (i j : Nat) (hE : effectNode.id = "effect-effect-" ++ natStr i)
    (hR : refNode.id = "independent-hook-" ++ natStr j) :
    sigOf (mkMutRefEdge effectNode refNode name).id = some (3, i, j, name.data) := by
  show sigOf ("mut-ref-" ++ effectNode.id ++ "-" ++ refNode.id ++ "-" ++ name) = _
  rw [hR, hE, sigOf_fam3]

theorem sig_mkCbMutEdge (cbNode stateNode : GraphNode) (name : String)
    (i j : Nat) (hC : cbNode.id = "effect-callback-" ++ natStr i)
    (hS : stateNode.id = "state-hook-" ++ natStr j) :
    sigOf (mkCbMutEdge cbNode stateNode name).id = some (4, i, j, name.data) := by
  show sigOf ("cb-mut-" ++ cbNode.id ++ "-" ++ stateNode.id ++ "-" ++ name) = _
  rw [hS, hC, sigOf_fam4]

theorem sig_mkJsxRefAttrEdge (jsxNode rn : GraphNode) (name : String)
    (n j : Nat) (hJ : jsxNode.id = "jsx-jsx-" ++ natStr n)
    (hR : rn.id = "independent-hook-" ++ natStr j) :
    sigOf (mkJsxRefAttrEdge jsxNode rn name).id = some (5, n, j, name.data) := by
  show sigOf ("jsx-ref-attr-" ++ jsxNode.id ++ "-" ++ rn.id ++ "-" ++ name) = _
  rw [hR, hJ, sigOf_fam5]

theorem sig_mkJsxRefPropEdge (jsxNode rn : GraphNode) (name : String)
    (n j : Nat) (hJ : jsxNode.id = "jsx-jsx-" ++ natStr n)
    (hR : rn.id = "independent-hook-" ++ natStr j) :
    sigOf (mkJsxRefPropEdge jsxNode rn name).id = some (6, j, n, name.data) := by
  show sigOf ("jsx-ref-prop-" ++ rn.id ++ "-" ++ jsxNode.id ++ "-" ++ name) = _
  rw [hR, hJ, sigOf_fam6]

theorem sig_mkJsxPropEdge (jsxNode sn : GraphNode) (name : String)
    (n j : Nat) (hJ : jsxNode.id = "jsx-jsx-" ++ natStr n)
    (hS : sn.id = "state-hook-" ++ natStr j) :
    sigOf (mkJsxPropEdge jsxNode sn name).id = some (7, j, n, name.data) := by
  show sigOf ("jsx-prop-" ++ sn.id ++ "-" ++ jsxNode.id ++ "-" ++ name) = _
  rw [hS, hJ, sigOf_fam7]

theorem sig_mkJsxTreeEdge (parentNode childNode : GraphNode)
    (p c : Nat) (hP : parentNode.id = "jsx-jsx-" ++ natStr p)
    (hC : childNode.id = "jsx-jsx-" ++ natStr c) :
    sigOf (mkJsxTreeEdge parentNode childNode).id = some (8, p, c, []) := by
  show sigOf ("jsx-tree-" ++ parentNode.id ++ "-" ++ childNode.id) = _
  rw [hP, hC, sigOf_fam8]
theorem nodup_map_data {α : Type _} (g : α → String) (l : List α)
    (h : (l.map g).Nodup) : (l.map (fun a => (g a).data)).Nodup := by
  have h2 := List.Nodup.map strData_inj h
  rw [List.map_map] at h2
  exact h2

theorem nodup_append4_by_key {β : Type _} (key : β → Nat) (l0 l1 l2 l3 : List β)
    (h0 : l0.Nodup) (h1 : l1.Nodup) (h2 : l2.Nodup) (h3 : l3.Nodup)
    (f0 : ∀ b ∈ l0, key b = 0) (f1 : ∀ b ∈ l1, key b = 1)
    (f2 : ∀ b ∈ l2, key b = 2) (f3 : ∀ b ∈ l3, key b = 3) :
    (l0 ++ l1 ++ l2 ++ l3).Nodup := by
  apply List.Nodup.append
  · apply List.Nodup.append
    · apply List.Nodup.append h0 h1
      refine disjoint_of_key (fun b => key b = 0) _ _ f0 ?_
      intro b hb
      show ¬ key b = 0
      rw [f1 b hb]
      decide
    · exact h2
    · refine disjoint_of_key (fun b => key b ≤ 1) _ _ ?_ ?_
      · intro b hb
        show key b ≤ 1
        rcases List.mem_append.mp hb with hb | hb
        · rw [f0 b hb]; decide
        · rw [f1 b hb]
      · intro b hb
        show ¬ key b ≤ 1
        rw [f2 b hb]
        decide
  · exact h3
  · refine disjoint_of_key (fun b => key b ≤ 2) _ _ ?_ ?_
    · intro b hb
      show key b ≤ 2
      rcases List.mem_append.mp hb with hb | hb
      · rcases List.mem_append.mp hb with hb | hb
        · rw [f0 b hb]; decide
        · rw [f1 b hb]; decide
      · rw [f2 b hb]
    · intro b hb
      show ¬ key b ≤ 2
      rw [f3 b hb]
      decide

theorem effectDepEdges_char (sN iN eN : List GraphNode) (e : AnalyzedEffect)
    (i : Nat) (he : e.id = "effect-" ++ natStr i)
    (hsn : ∀ nd ∈ sN, ∃ j, nd.id = "state-hook-" ++ natStr j)
    (hind : ∀ nd ∈ iN, ∃ j, nd.id = "independent-hook-" ++ natStr j) :
    ∀ ed ∈ effectDepEdges sN iN eN e,
      effSlot (sigOf ed.id) = i ∧ famOf (sigOf ed.id) ≤ 3 := by
  intro ed hed
  unfold effectDepEdges at hed
  rcases hfind : eN.find? (fun nd => nd.id == "effect-" ++ e.id) with _ | effectNode
  · rw [hfind] at hed
    cases hed
  · rw [hfind] at hed
    have hEid : effectNode.id = "effect-effect-" ++ natStr i := by
      rw [(find?_beq_id eN _ _ hfind).2, he]
      rfl
    rcases List.mem_append.mp hed with hed | hed
    · rcases List.mem_append.mp hed with hed | hed
      · rcases List.mem_append.mp hed with hed | hed
        · rcases List.mem_filterMap.mp hed with ⟨dep, _, hFd⟩
          rcases Option.map_eq_some'.mp hFd with ⟨stateNode, hfs, hmk⟩
          obtain ⟨j, hj⟩ := hsn stateNode (List.mem_of_find?_eq_some hfs)
          rw [← hmk, sig_mkDepEdge effectNode stateNode dep.name i j hEid hj]
          exact ⟨rfl, by show (0:Nat) ≤ 3; decide⟩
        · rcases List.mem_filterMap.mp hed with ⟨r, _, hFd⟩
          rcases Option.map_eq_some'.mp hFd with ⟨refNode, hfs, hmk⟩
          obtain ⟨j, hj⟩ := hind refNode (List.mem_of_find?_eq_some hfs)
          rw [← hmk, sig_mkDepRefEdge effectNode refNode r i j hEid hj]
          exact ⟨rfl, by show (1:Nat) ≤ 3; decide⟩
      · rcases List.mem_filterMap.mp hed with ⟨r, _, hFd⟩
        rcases Option.map_eq_some'.mp hFd with ⟨stateNode, hfs, hmk⟩
        obtain ⟨j, hj⟩ := hsn stateNode (List.mem_of_find?_eq_some hfs)
        rw [← hmk, sig_mkMutEdge effectNode stateNode r i j hEid hj]
        exact ⟨rfl, by show (2:Nat) ≤ 3; decide⟩
    · rcases List.mem_filterMap.mp hed with ⟨r, _, hFd⟩
      rcases Option.map_eq_some'.mp hFd with ⟨refNode, hfs, hmk⟩
      obtain ⟨j, hj⟩ := hind refNode (List.mem_of_find?_eq_some hfs)
      rw [← hmk, sig_mkMutRefEdge effectNode refNode r i j hEid hj]
      exact ⟨rfl, by show (3:Nat) ≤ 3; decide⟩

theorem effectDepEdges_sig_nodup (sN iN eN : List GraphNode)
    (e : AnalyzedEffect) (i : Nat) (he : e.id = "effect-" ++ natStr i)
    (hsn : ∀ nd ∈ sN, ∃ j, nd.id = "state-hook-" ++ natStr j)
    (hind : ∀ nd ∈ iN, ∃ j, nd.id = "independent-hook-" ++ natStr j)
    (hdeps : (e.dependencies.map (·.name)).Nodup)
    (hrr : e.refReads.Nodup) (hset : e.setters.Nodup)
    (hrw : e.refWrites.Nodup) :
    ((effectDepEdges sN iN eN e).map (fun ed => sigOf ed.id)).Nodup := by
  unfold effectDepEdges
  rcases hfind : eN.find? (fun nd => nd.id == "effect-" ++ e.id) with _ | effectNode
  · rw [hfind]
    simp
  · rw [hfind]
    have hEid : effectNode.id = "effect-effect-" ++ natStr i := by
      rw [(find?_beq_id eN _ _ hfind).2, he]
      rfl
    simp only [List.map_append]
    refine nodup_append4_by_key famOf _ _ _ _ ?h0 ?h1 ?h2 ?h3 ?f0 ?f1 ?f2 ?f3
    case h0 =>
      rw [List.map_filterMap]
      apply nodup_filterMap_key _ _ (fun dep : EffectDependency => dep.name.data)
        nameSlot (nodup_map_data _ _ hdeps)
      intro dep hdep s hFs
      rcases Option.map_eq_some'.mp hFs with ⟨ed, hmk2, hsig⟩
      rcases Option.map_eq_some'.mp hmk2 with ⟨stateNode, hfs, hmk⟩
      obtain ⟨j, hj⟩ := hsn stateNode (List.mem_of_find?_eq_some hfs)
      rw [← hsig, ← hmk, sig_mkDepEdge effectNode stateNode dep.name i j hEid hj]
      rfl
    case h1 =>
      rw [List.map_filterMap]
      apply nodup_filterMap_key _ _ (fun r : String => r.data) nameSlot
        (List.Nodup.map strData_inj hrr)
      intro r hr s hFs
      rcases Option.map_eq_some'.mp hFs with ⟨ed, hmk2, hsig⟩
      rcases Option.map_eq_some'.mp hmk2 with ⟨refNode, hfs, hmk⟩
      obtain ⟨j, hj⟩ := hind refNode (List.mem_of_find?_eq_some hfs)
      rw [← hsig, ← hmk, sig_mkDepRefEdge effectNode refNode r i j hEid hj]
      rfl
    case h2 =>
      rw [List.map_filterMap]
      apply nodup_filterMap_key _ _ (fun r : String => r.data) nameSlot
        (List.Nodup.map strData_inj hset)
      intro r hr s hFs
      rcases Option.map_eq_some'.mp hFs with ⟨ed, hmk2, hsig⟩
      rcases Option.map_eq_some'.mp hmk2 with ⟨stateNode, hfs, hmk⟩
      obtain ⟨j, hj⟩ := hsn stateNode (List.mem_of_find?_eq_some hfs)
      rw [← hsig, ← hmk, sig_mkMutEdge effectNode stateNode r i j hEid hj]
      rfl
    case h3 =>
      rw [List.map_filterMap]
      apply nodup_filterMap_key _ _ (fun r : String => r.data) nameSlot
        (List.Nodup.map strData_inj hrw)
      intro r hr s hFs
      rcases Option.map_eq_some'.mp hFs with ⟨ed, hmk2, hsig⟩
      rcases Option.map_eq_some'.mp hmk2 with ⟨refNode, hfs, hmk⟩
      obtain ⟨j, hj⟩ := hind refNode (List.mem_of_find?_eq_some hfs)
      rw [← hsig, ← hmk, sig_mkMutRefEdge effectNode refNode r i j hEid hj]
      rfl
    case f0 =>
      intro s hs
      rcases List.mem_map.mp hs with ⟨ed, hed, rfl⟩
      rcases List.mem_filterMap.mp hed with ⟨dep, _, hFd⟩
      rcases Option.map_eq_some'.mp hFd with ⟨stateNode, hfs, hmk⟩
      obtain ⟨j, hj⟩ := hsn stateNode (List.mem_of_find?_eq_some hfs)
      rw [← hmk, sig_mkDepEdge effectNode stateNode dep.name i j hEid hj]
      rfl
    case f1 =>
      intro s hs
      rcases List.mem_map.mp hs with ⟨ed, hed, rfl⟩
      rcases List.mem_filterMap.mp hed with ⟨r, _, hFd⟩
      rcases Option.map_eq_some'.mp hFd with ⟨refNode, hfs, hmk⟩
      obtain ⟨j, hj⟩ := hind refNode (List.mem_of_find?_eq_some hfs)
      rw [← hmk, sig_mkDepRefEdge effectNode refNode r i j hEid hj]
      rfl
    case f2 =>
      intro s hs
      rcases List.mem_map.mp hs with ⟨ed, hed, rfl⟩
      rcases List.mem_filterMap.mp hed with ⟨r, _, hFd⟩
      rcases Option.map_eq_some'.mp hFd with ⟨stateNode, hfs, hmk⟩
      obtain ⟨j, hj⟩ := hsn stateNode (List.mem_of_find?_eq_some hfs)
      rw [← hmk, sig_mkMutEdge effectNode stateNode r i j hEid hj]
      rfl
    case f3 =>
      intro s hs
      rcases List.mem_map.mp hs with ⟨ed, hed, rfl⟩
      rcases List.mem_filterMap.mp hed with ⟨r, _, hFd⟩
      rcases Option.map_eq_some'.mp hFd with ⟨refNode, hfs, hmk⟩
      obtain ⟨j, hj⟩ := hind refNode (List.mem_of_find?_eq_some hfs)
      rw [← hmk, sig_mkMutRefEdge effectNode refNode r i j hEid hj]
      rfl
theorem callbackMutEdges_char (sN eN : List GraphNode)
    (cb : AnalyzedCallback) (i : Nat) (hc : cb.id = "callback-" ++ natStr i)
    (hsn : ∀ nd ∈ sN, ∃ j, nd.id = "state-hook-" ++ natStr j) :
    ∀ ed ∈ callbackMutEdges sN eN cb,
      effSlot (sigOf ed.id) = i ∧ famOf (sigOf ed.id) = 4 := by
  intro ed hed
  unfold callbackMutEdges at hed
  rcases hfind : eN.find? (fun nd => nd.id == "effect-" ++ cb.id) with _ | cbNode
  · rw [hfind] at hed
    cases hed
  · rw [hfind] at hed
    have hCid : cbNode.id = "effect-callback-" ++ natStr i := by
      rw [(find?_beq_id eN _ _ hfind).2, hc]
      rfl
    rcases List.mem_filterMap.mp hed with ⟨setter, _, hFd⟩
    rcases Option.map_eq_some'.mp hFd with ⟨stateNode, hfs, hmk⟩
    obtain ⟨j, hj⟩ := hsn stateNode (List.mem_of_find?_eq_some hfs)
    rw [← hmk, sig_mkCbMutEdge cbNode stateNode setter i j hCid hj]
    exact ⟨rfl, rfl⟩

theorem callbackMutEdges_sig_nodup (sN eN : List GraphNode)
    (cb : AnalyzedCallback) (i : Nat) (hc : cb.id = "callback-" ++ natStr i)
    (hsn : ∀ nd ∈ sN, ∃ j, nd.id = "state-hook-" ++ natStr j)
    (hset : cb.setters.Nodup) :
    ((callbackMutEdges sN eN cb).map (fun ed => sigOf ed.id)).Nodup := by
  unfold callbackMutEdges
  rcases hfind : eN.find? (fun nd => nd.id == "effect-" ++ cb.id) with _ | cbNode
  · rw [hfind]
    simp
  · rw [hfind]
    have hCid : cbNode.id = "effect-callback-" ++ natStr i := by
      rw [(find?_beq_id eN _ _ hfind).2, hc]
      rfl
    rw [List.map_filterMap]
    apply nodup_filterMap_key _ _ (fun r : String => r.data) nameSlot
      (List.Nodup.map strData_inj hset)
    intro r hr s hFs
    rcases Option.map_eq_some'.mp hFs with ⟨ed, hmk2, hsig⟩
    rcases Option.map_eq_some'.mp hmk2 with ⟨stateNode, hfs, hmk⟩
    obtain ⟨j, hj⟩ := hsn stateNode (List.mem_of_find?_eq_some hfs)
    rw [← hsig, ← hmk, sig_mkCbMutEdge cbNode stateNode r i j hCid hj]
    rfl

theorem jsxPropEdges_char (iN sN : List GraphNode) (node : GraphNode)
    (n : Nat) (hn : node.id = "jsx-jsx-" ++ natStr n)
    (hsn : ∀ nd ∈ sN, ∃ j, nd.id = "state-hook-" ++ natStr j)
    (hind : ∀ nd ∈ iN, ∃ j, nd.id = "independent-hook-" ++ natStr j) :
    ∀ ed ∈ jsxPropEdges iN sN node,
      jsxSlot (sigOf ed.id) = n ∧ 5 ≤ famOf (sigOf ed.id) ∧
        famOf (sigOf ed.id) ≤ 7 := by
  intro ed hed
  unfold jsxPropEdges at hed
  rcases List.mem_filterMap.mp hed with ⟨name, _, hFd⟩
  rcases hfr : iN.find? (fun nd => nd.label == name) with _ | rn
  · rw [hfr] at hFd
    simp only at hFd
    rcases Option.map_eq_some'.mp hFd with ⟨sn, hfs, hmk⟩
    obtain ⟨j, hj⟩ := hsn sn (List.mem_of_find?_eq_some hfs)
    rw [← hmk, sig_mkJsxPropEdge node sn name n j hn hj]
    exact ⟨rfl, by show 5 ≤ 7; decide, by show (7:Nat) ≤ 7; decide⟩
  · rw [hfr] at hFd
    simp only at hFd
    obtain ⟨j, hj⟩ := hind rn (List.mem_of_find?_eq_some hfr)
    by_cases hattr : node.meta.refProps.contains name
    · rw [if_pos hattr] at hFd
      rcases Option.some.injEq .. ▸ hFd with rfl
      rw [sig_mkJsxRefAttrEdge node rn name n j hn hj]
      exact ⟨rfl, by show 5 ≤ 5; decide, by show (5:Nat) ≤ 7; decide⟩
    · rw [if_neg hattr] at hFd
      rcases Option.some.injEq .. ▸ hFd with rfl
      rw [sig_mkJsxRefPropEdge node rn name n j hn hj]
      exact ⟨rfl, by show 5 ≤ 6; decide, by show (6:Nat) ≤ 7; decide⟩

theorem jsxPropEdges_sig_nodup (iN sN : List GraphNode) (node : GraphNode)
    (n : Nat) (hn : node.id = "jsx-jsx-" ++ natStr n)
    (hsn : ∀ nd ∈ sN, ∃ j, nd.id = "state-hook-" ++ natStr j)
    (hind : ∀ nd ∈ iN, ∃ j, nd.id = "independent-hook-" ++ natStr j)
    (hprops : node.meta.props.Nodup) :
    ((jsxPropEdges iN sN node).map (fun ed => sigOf ed.id)).Nodup := by
  unfold jsxPropEdges
  rw [List.map_filterMap]
  apply nodup_filterMap_key _ _ (fun r : String => r.data) nameSlot
    (List.Nodup.map strData_inj hprops)
  intro name hname s hFs
  rcases Option.map_eq_some'.mp hFs with ⟨ed, hopt, hsig⟩
  rcases hfr : iN.find? (fun nd => nd.label == name) with _ | rn
  · rw [hfr] at hopt
    simp only at hopt
    rcases Option.map_eq_some'.mp hopt with ⟨sn, hfs, hmk⟩
    obtain ⟨j, hj⟩ := hsn sn (List.mem_of_find?_eq_some hfs)
    rw [← hsig, ← hmk, sig_mkJsxPropEdge node sn name n j hn hj]
    rfl
  · rw [hfr] at hopt
    simp only at hopt
    obtain ⟨j, hj⟩ := hind rn (List.mem_of_find?_eq_some hfr)
    by_cases hattr : node.meta.refProps.contains name
    · rw [if_pos hattr] at hopt
      rcases Option.some.injEq .. ▸ hopt with rfl
      rw [← hsig, sig_mkJsxRefAttrEdge node rn name n j hn hj]
      rfl
    · rw [if_neg hattr] at hopt
      rcases Option.some.injEq .. ▸ hopt with rfl
      rw [← hsig, sig_mkJsxRefPropEdge node rn name n j hn hj]
      rfl
theorem jsxTreeEdges_char (jN : List GraphNode) (recs : List AnalyzedJsxNode)
    (hjN : ∀ nd ∈ jN, ∃ c, nd.id = "jsx-jsx-" ++ natStr c) :
    ∀ ed ∈ jsxTreeEdges jN recs, famOf (sigOf ed.id) = 8 := by
  intro ed hed
  unfold jsxTreeEdges at hed
  rcases List.mem_filterMap.mp hed with ⟨jsx, _, hFd⟩
  by_cases htr : truthyOpt jsx.parentId
  · rw [if_pos htr] at hFd
    rcases hp : jsxNodeMapGet jN (jsx.parentId.getD "") with _ | parentNode
      <;> rcases hc : jsxNodeMapGet jN jsx.id with _ | childNode
      <;> rw [hp, hc] at hFd
    · cases hFd
    · cases hFd
    · cases hFd
    · obtain ⟨pc, hpc⟩ := hjN parentNode (jsxNodeMapGet_some jN _ _ hp).1
      obtain ⟨cc, hcc⟩ := hjN childNode (jsxNodeMapGet_some jN _ _ hc).1
      rcases Option.some.injEq .. ▸ hFd with rfl
      rw [sig_mkJsxTreeEdge parentNode childNode pc cc hpc hcc]
      rfl
  · rw [if_neg htr] at hFd
    cases hFd

theorem jsxTreeEdges_sig_nodup (jN : List GraphNode)
    (recs : List AnalyzedJsxNode)
    (hjN : ∀ nd ∈ jN, ∃ c, nd.id = "jsx-jsx-" ++ natStr c)
    (hnum : (recs.map (fun r => numOf 4 r.id)).Nodup) :
    ((jsxTreeEdges jN recs).map (fun ed => sigOf ed.id)).Nodup := by
  unfold jsxTreeEdges
  rw [List.map_filterMap]
  apply nodup_filterMap_key _ _ (fun r : AnalyzedJsxNode => numOf 4 r.id)
    jsxSlot hnum
  intro jsx hjsx s hFs
  rcases Option.map_eq_some'.mp hFs with ⟨ed, hopt, hsig⟩
  by_cases htr : truthyOpt jsx.parentId
  · rw [if_pos htr] at hopt
    rcases hp : jsxNodeMapGet jN (jsx.parentId.getD "") with _ | parentNode
      <;> rcases hc : jsxNodeMapGet jN jsx.id with _ | childNode
      <;> rw [hp, hc] at hopt
    · cases hopt
    · cases hopt
    · cases hopt
    · obtain ⟨pc, hpc⟩ := hjN parentNode (jsxNodeMapGet_some jN _ _ hp).1
      obtain ⟨cc, hcc⟩ := hjN childNode (jsxNodeMapGet_some jN _ _ hc).1
      have hstrip := (jsxNodeMapGet_some jN _ _ hc).2
      have hrid : jsx.id = "jsx-" ++ natStr cc := by
        rw [← hstrip, hcc]
        rfl
      rcases Option.some.injEq .. ▸ hopt with rfl
      rw [← hsig, sig_mkJsxTreeEdge parentNode childNode pc cc hpc hcc]
      show cc = numOf 4 jsx.id
      rw [hrid]
      exact (numOf_pre "jsx-" cc).symm
  · rw [if_neg htr] at hopt
    cases hopt
theorem nodup_append4_by_ranges {β : Type _} (key : β → Nat)
    (l0 l1 l2 l3 : List β)
    (h0 : l0.Nodup) (h1 : l1.Nodup) (h2 : l2.Nodup) (h3 : l3.Nodup)
    (f0 : ∀ b ∈ l0, key b ≤ 3) (f1 : ∀ b ∈ l1, key b = 4)
    (f2 : ∀ b ∈ l2, 5 ≤ key b ∧ key b ≤ 7) (f3 : ∀ b ∈ l3, key b = 8) :
    (l0 ++ l1 ++ l2 ++ l3).Nodup := by
  apply List.Nodup.append
  · apply List.Nodup.append
    · apply List.Nodup.append h0 h1
      refine disjoint_of_key (fun b => key b ≤ 3) _ _ f0 ?_
      intro b hb
      show ¬ key b ≤ 3
      have := f1 b hb
      omega
    · exact h2
    · refine disjoint_of_key (fun b => key b ≤ 4) _ _ ?_ ?_
      · intro b hb
        show key b ≤ 4
        rcases List.mem_append.mp hb with hb | hb
        · have := f0 b hb; omega
        · have := f1 b hb; omega
      · intro b hb
        show ¬ key b ≤ 4
        have := f2 b hb
        omega
  · exact h3
  · refine disjoint_of_key (fun b => key b ≤ 7) _ _ ?_ ?_
    · intro b hb
      show key b ≤ 7
      rcases List.mem_append.mp hb with hb | hb
      · rcases List.mem_append.mp hb with hb | hb
        · have := f0 b hb; omega
        · have := f1 b hb; omega
      · exact (f2 b hb).2
    · intro b hb
      show ¬ key b ≤ 7
      have := f3 b hb
      omega

theorem edges_sig_nodup (sN iN eN jN : List GraphNode)
    (effects : List AnalyzedEffect) (cbs : List AnalyzedCallback)
    (recs : List AnalyzedJsxNode)
    (hsn : ∀ nd ∈ sN, ∃ j, nd.id = "state-hook-" ++ natStr j)
    (hind : ∀ nd ∈ iN, ∃ j, nd.id = "independent-hook-" ++ natStr j)
    (hjN : ∀ nd ∈ jN, ∃ c, nd.id = "jsx-jsx-" ++ natStr c)
    (hES : ∀ e ∈ effects, ∃ i, e.id = "effect-" ++ natStr i)
    (hCS : ∀ cb ∈ cbs, ∃ i, cb.id = "callback-" ++ natStr i)
    (hEnum : (effects.map (fun e => numOf 7 e.id)).Nodup)
    (hCnum : (cbs.map (fun cb => numOf 9 cb.id)).Nodup)
    (hJnum : (jN.map (fun nd => numOf 8 nd.id)).Nodup)
    (hRnum : (recs.map (fun r => numOf 4 r.id)).Nodup)
    (hEl : ∀ e ∈ effects, (e.dependencies.map (·.name)).Nodup ∧
      e.refReads.Nodup ∧ e.setters.Nodup ∧ e.refWrites.Nodup)
    (hCl : ∀ cb ∈ cbs, cb.setters.Nodup)
    (hJp : ∀ nd ∈ jN, nd.meta.props.Nodup) :
    ((effects.flatMap (effectDepEdges sN iN eN)
      ++ cbs.flatMap (callbackMutEdges sN eN)
      ++ jN.flatMap (jsxPropEdges iN sN)
      ++ jsxTreeEdges jN recs).map (fun ed => sigOf ed.id)).Nodup := by
  simp only [List.map_append]
  refine nodup_append4_by_ranges famOf _ _ _ _ ?h0 ?h1 ?h2 ?h3 ?f0 ?f1 ?f2 ?f3
  case h0 =>
    rw [List.map_flatMap]
    apply nodup_flatMap_key effects _ (fun e => numOf 7 e.id) effSlot hEnum
    · intro e he s hs
      obtain ⟨i, hi⟩ := hES e he
      rcases List.mem_map.mp hs with ⟨ed, hed, rfl⟩
      rw [(effectDepEdges_char sN iN eN e i hi hsn hind ed hed).1, hi]
      exact (numOf_pre "effect-" i).symm
    · intro e he
      obtain ⟨i, hi⟩ := hES e he
      obtain ⟨hd, hr, hs2, hw⟩ := hEl e he
      exact effectDepEdges_sig_nodup sN iN eN e i hi hsn hind hd hr hs2 hw
  case h1 =>
    rw [List.map_flatMap]
    apply nodup_flatMap_key cbs _ (fun cb => numOf 9 cb.id) effSlot hCnum
    · intro cb hcb s hs
      obtain ⟨i, hi⟩ := hCS cb hcb
      rcases List.mem_map.mp hs with ⟨ed, hed, rfl⟩
      rw [(callbackMutEdges_char sN eN cb i hi hsn ed hed).1, hi]
      exact (numOf_pre "callback-" i).symm
    · intro cb hcb
      obtain ⟨i, hi⟩ := hCS cb hcb
      exact callbackMutEdges_sig_nodup sN eN cb i hi hsn (hCl cb hcb)
  case h2 =>
    rw [List.map_flatMap]
    apply nodup_flatMap_key jN _ (fun nd => numOf 8 nd.id) jsxSlot hJnum
    · intro nd hnd s hs
      obtain ⟨n, hn⟩ := hjN nd hnd
      rcases List.mem_map.mp hs with ⟨ed, hed, rfl⟩
      rw [(jsxPropEdges_char iN sN nd n hn hsn hind ed hed).1, hn]
      exact (numOf_pre "jsx-jsx-" n).symm
    · intro nd hnd
      obtain ⟨n, hn⟩ := hjN nd hnd
      exact jsxPropEdges_sig_nodup iN sN nd n hn hsn hind (hJp nd hnd)
  case h3 => exact jsxTreeEdges_sig_nodup jN recs hjN hRnum
  case f0 =>
    intro s hs
    rcases List.mem_map.mp hs with ⟨ed, hed, rfl⟩
    rcases List.mem_flatMap.mp hed with ⟨e, he, hede⟩
    obtain ⟨i, hi⟩ := hES e he
    exact (effectDepEdges_char sN iN eN e i hi hsn hind ed hede).2
  case f1 =>
    intro s hs
    rcases List.mem_map.mp hs with ⟨ed, hed, rfl⟩
    rcases List.mem_flatMap.mp hed with ⟨cb, hcb, hede⟩
    obtain ⟨i, hi⟩ := hCS cb hcb
    exact (callbackMutEdges_char sN eN cb i hi hsn ed hede).2
  case f2 =>
    intro s hs
    rcases List.mem_map.mp hs with ⟨ed, hed, rfl⟩
    rcases List.mem_flatMap.mp hed with ⟨nd, hnd, hede⟩
    obtain ⟨n, hn⟩ := hjN nd hnd
    exact (jsxPropEdges_char iN sN nd n hn hsn hind ed hede).2
  case f3 =>
    intro s hs
    rcases List.mem_map.mp hs with ⟨ed, hed, rfl⟩
    exact jsxTreeEdges_char jN recs hjN ed hed
/-! Every constructed edge endpoint is the id of a node of the
corresponding column list. -/

theorem effectDepEdges_endpoints (sN iN eN : List GraphNode)
    (e : AnalyzedEffect) (P : String → Prop)
    (hPs : ∀ nd ∈ sN, P nd.id) (hPi : ∀ nd ∈ iN, P nd.id)
    (hPe : ∀ nd ∈ eN, P nd.id) :
    ∀ ed ∈ effectDepEdges sN iN eN e,
      P ed.fromEp.nodeId ∧ P ed.toEp.nodeId := by
  intro ed hed
  unfold effectDepEdges at hed
  rcases hfind : eN.find? (fun nd => nd.id == "effect-" ++ e.id) with _ | effectNode
  · rw [hfind] at hed
    cases hed
  · rw [hfind] at hed
    have hPen : P effectNode.id := hPe effectNode (List.mem_of_find?_eq_some hfind)
    rcases List.mem_append.mp hed with hed | hed
    · rcases List.mem_append.mp hed with hed | hed
      · rcases List.mem_append.mp hed with hed | hed
        · rcases List.mem_filterMap.mp hed with ⟨dep, _, hFd⟩
          rcases Option.map_eq_some'.mp hFd with ⟨stateNode, hfs, hmk⟩
          rw [← hmk]
          exact ⟨hPs stateNode (List.mem_of_find?_eq_some hfs), hPen⟩
        · rcases List.mem_filterMap.mp hed with ⟨r, _, hFd⟩
          rcases Option.map_eq_some'.mp hFd with ⟨refNode, hfs, hmk⟩
          rw [← hmk]
          exact ⟨hPi refNode (List.mem_of_find?_eq_some hfs), hPen⟩
      · rcases List.mem_filterMap.mp hed with ⟨r, _, hFd⟩
        rcases Option.map_eq_some'.mp hFd with ⟨stateNode, hfs, hmk⟩
        rw [← hmk]
        exact ⟨hPen, hPs stateNode (List.mem_of_find?_eq_some hfs)⟩
    · rcases List.mem_filterMap.mp hed with ⟨r, _, hFd⟩
      rcases Option.map_eq_some'.mp hFd with ⟨refNode, hfs, hmk⟩
      rw [← hmk]
      exact ⟨hPen, hPi refNode (List.mem_of_find?_eq_some hfs)⟩

theorem callbackMutEdges_endpoints (sN eN : List GraphNode)
    (cb : AnalyzedCallback) (P : String → Prop)
    (hPs : ∀ nd ∈ sN, P nd.id) (hPe : ∀ nd ∈ eN, P nd.id) :
    ∀ ed ∈ callbackMutEdges sN eN cb,
      P ed.fromEp.nodeId ∧ P ed.toEp.nodeId := by
  intro ed hed
  unfold callbackMutEdges at hed
  rcases hfind : eN.find? (fun nd => nd.id == "effect-" ++ cb.id) with _ | cbNode
  · rw [hfind] at hed
    cases hed
  · rw [hfind] at hed
    rcases List.mem_filterMap.mp hed with ⟨r, _, hFd⟩
    rcases Option.map_eq_some'.mp hFd with ⟨stateNode, hfs, hmk⟩
    rw [← hmk]
    exact ⟨hPe cbNode (List.mem_of_find?_eq_some hfind),
      hPs stateNode (List.mem_of_find?_eq_some hfs)⟩

theorem jsxPropEdges_endpoints (iN sN : List GraphNode) (node : GraphNode)
    (P : String → Prop) (hPi : ∀ nd ∈ iN, P nd.id)
    (hPs : ∀ nd ∈ sN, P nd.id) (hPn : P node.id) :
    ∀ ed ∈ jsxPropEdges iN sN node,
      P ed.fromEp.nodeId ∧ P ed.toEp.nodeId := by
  intro ed hed
  unfold jsxPropEdges at hed
  rcases List.mem_filterMap.mp hed with ⟨name, _, hFd⟩
  rcases hfr : iN.find? (fun nd => nd.label == name) with _ | rn
  · rw [hfr] at hFd
    simp only at hFd
    rcases Option.map_eq_some'.mp hFd with ⟨sn, hfs, hmk⟩
    rw [← hmk]
    exact ⟨hPs sn (List.mem_of_find?_eq_some hfs), hPn⟩
  · rw [hfr] at hFd
    simp only at hFd
    have hPr : P rn.id := hPi rn (List.mem_of_find?_eq_some hfr)
    by_cases hattr : node.meta.refProps.contains name
    · rw [if_pos hattr] at hFd
      rcases Option.some.injEq .. ▸ hFd with rfl
      exact ⟨hPn, hPr⟩
    · rw [if_neg hattr] at hFd
      rcases Option.some.injEq .. ▸ hFd with rfl
      exact ⟨hPr, hPn⟩

theorem jsxTreeEdges_endpoints (jN : List GraphNode)
    (recs : List AnalyzedJsxNode) (P : String → Prop)
    (hPj : ∀ nd ∈ jN, P nd.id) :
    ∀ ed ∈ jsxTreeEdges jN recs,
      P ed.fromEp.nodeId ∧ P ed.toEp.nodeId := by
  intro ed hed
  unfold jsxTreeEdges at hed
  rcases List.mem_filterMap.mp hed with ⟨jsx, _, hFd⟩
  by_cases htr : truthyOpt jsx.parentId
  · rw [if_pos htr] at hFd
    rcases hp : jsxNodeMapGet jN (jsx.parentId.getD "") with _ | parentNode
      <;> rcases hc : jsxNodeMapGet jN jsx.id with _ | childNode
      <;> rw [hp, hc] at hFd
    · cases hFd
    · cases hFd
    · cases hFd
    · rcases Option.some.injEq .. ▸ hFd with rfl
      exact ⟨hPj parentNode (jsxNodeMapGet_some jN _ _ hp).1,
        hPj childNode (jsxNodeMapGet_some jN _ _ hc).1⟩
  · rw [if_neg htr] at hFd
    cases hFd
/-! The four column-node lists of `buildGraphFromMappingResult (some m)`,
named so the edge lemmas can speak about them. -/

def independentNodesOf (m : MappingResult) : List GraphNode :=
  layoutColumnNodes
    ((m.hooks.filter (fun h => h.hookKind == .useRef)).map fun h =>
      { id := h.id, label := h.name })
    .independent buildColumnX.independent 80 50

def stateNodesOf (m : MappingResult) : List GraphNode :=
  layoutColumnNodes
    ((m.hooks.filter (fun h =>
        h.hookKind == .useState || h.hookKind == .zustand ||
          h.hookKind == .reactQuery)).map fun h =>
      { id := h.id,
        label := if h.scope == .globalScope then h.name ++ " (global)"
          else h.name })
    .state buildColumnX.state 80 40

def effectNodesOf (m : MappingResult) : List GraphNode :=
  layoutColumnNodes
    (m.effects.map (fun e => { id := e.id, label := hookKindStr e.hookKind })
      ++ m.callbacks.map (fun cb =>
        { id := cb.id, label := cb.name.getD "callback" }))
    .effect buildColumnX.effect 80 40

def jsxNodesOf (m : MappingResult) : List GraphNode :=
  buildJsxGraphNodes buildColumnX m.jsxNodes

theorem buildGraph_some_nodes (m : MappingResult) :
    (buildGraphFromMappingResult (some m)).nodes
      = independentNodesOf m ++ stateNodesOf m ++ effectNodesOf m
        ++ jsxNodesOf m := rfl

theorem buildGraph_some_edges (m : MappingResult) :
    (buildGraphFromMappingResult (some m)).edges
      = m.effects.flatMap (effectDepEdges (stateNodesOf m)
          (independentNodesOf m) (effectNodesOf m))
        ++ m.callbacks.flatMap (callbackMutEdges (stateNodesOf m)
          (effectNodesOf m))
        ++ (jsxNodesOf m).flatMap (jsxPropEdges (independentNodesOf m)
          (stateNodesOf m))
        ++ jsxTreeEdges (jsxNodesOf m) m.jsxNodes := rfl
theorem stateNodesOf_shape (m : MappingResult)
    (hH : canonicalIds "hook-" (m.hooks.map (·.id))) :
    ∀ nd ∈ stateNodesOf m, ∃ j, nd.id = "state-hook-" ++ natStr j := by
  intro nd hnd
  rcases mem_layoutColumnNodes _ _ _ _ _ nd hnd with ⟨item, hitem, hid⟩
  rcases List.mem_map.mp hitem with ⟨h, hh, rfl⟩
  obtain ⟨j, hj⟩ := canonical_shape _ _ hH h.id
    (List.mem_map.mpr ⟨h, List.mem_of_mem_filter hh, rfl⟩)
  refine ⟨j, ?_⟩
  rw [hid]
  show kindStr .state ++ "-" ++ h.id = _
  rw [hj]
  rfl

theorem independentNodesOf_shape (m : MappingResult)
    (hH : canonicalIds "hook-" (m.hooks.map (·.id))) :
    ∀ nd ∈ independentNodesOf m, ∃ j, nd.id = "independent-hook-" ++ natStr j := by
  intro nd hnd
  rcases mem_layoutColumnNodes _ _ _ _ _ nd hnd with ⟨item, hitem, hid⟩
  rcases List.mem_map.mp hitem with ⟨h, hh, rfl⟩
  obtain ⟨j, hj⟩ := canonical_shape _ _ hH h.id
    (List.mem_map.mpr ⟨h, List.mem_of_mem_filter hh, rfl⟩)
  refine ⟨j, ?_⟩
  rw [hid]
  show kindStr .independent ++ "-" ++ h.id = _
  rw [hj]
  rfl

theorem jsxNodesOf_shape (m : MappingResult)
    (hJ : canonicalIds "jsx-" (m.jsxNodes.map (·.id))) :
    ∀ nd ∈ jsxNodesOf m, ∃ c, nd.id = "jsx-jsx-" ++ natStr c := by
  intro nd hnd
  rcases mem_buildJsxGraphNodes _ _ nd hnd with ⟨rec, hrec, hid, _, _, _⟩
  obtain ⟨c, hc⟩ := canonical_shape _ _ hJ rec.id
    (List.mem_map.mpr ⟨rec, hrec, rfl⟩)
  refine ⟨c, ?_⟩
  rw [hid, hc]
  rfl

theorem jsxNodesOf_props (m : MappingResult)
    (hJl : ∀ r ∈ m.jsxNodes, r.props.Nodup) :
    ∀ nd ∈ jsxNodesOf m, nd.meta.props.Nodup := by
  intro nd hnd
  rcases mem_buildJsxGraphNodes _ _ nd hnd with ⟨rec, hrec, _, hprops, _, _⟩
  rw [hprops]
  exact hJl rec hrec

theorem jsxNodesOf_num_nodup (m : MappingResult)
    (hJ : canonicalIds "jsx-" (m.jsxNodes.map (·.id))) :
    ((jsxNodesOf m).map (fun nd => numOf 8 nd.id)).Nodup := by
  have hperm := (buildJsxGraphNodes_ids buildColumnX m.jsxNodes).map (numOf 8)
  rw [List.map_map, List.map_map] at hperm
  have hR : (m.jsxNodes.map (fun rec => numOf 8 ("jsx-" ++ rec.id))).Nodup := by
    have hcongr : m.jsxNodes.map (fun rec => numOf 8 ("jsx-" ++ rec.id))
        = m.jsxNodes.map (fun rec => numOf 4 rec.id) := by
      apply List.map_congr_left
      intro rec hrec
      obtain ⟨c, hc⟩ := canonical_shape _ _ hJ rec.id
        (List.mem_map.mpr ⟨rec, hrec, rfl⟩)
      rw [hc]
      show numOf 8 ("jsx-jsx-" ++ natStr c) = numOf 4 ("jsx-" ++ natStr c)
      have e1 : numOf 8 ("jsx-jsx-" ++ natStr c) = c := numOf_pre "jsx-jsx-" c
      have e2 : numOf 4 ("jsx-" ++ natStr c) = c := numOf_pre "jsx-" c
      rw [e1, e2]
    rw [hcongr]
    have h2 := canonical_numOf_nodup "jsx-" _ hJ
    rw [List.map_map] at h2
    exact h2
  exact hperm.symm.nodup hR
/-- A fact model whose single effect lists the same dependency name
twice, exactly as `analyzeEffectCall` can produce (it pushes one entry
per element of the dependency array without deduplicating). -/
def dupDepModel : MappingResult :=
  { source := "", fileName := none, componentName := some "App",
    hooks := [⟨"hook-1", "a", .useState, .localScope, none, none⟩],
    effects := [⟨"effect-1", .useEffect, [⟨"a", false⟩, ⟨"a", false⟩],
      [], [], [], none⟩],
    callbacks := [], jsxNodes := [], exportedComponents := ["App"],
    defaultExport := some "App", errors := [], calledVariableNames := [] }

/-- C3, counterexample: an effect with a repeated dependency name makes
`buildGraphFromMappingResult` push two edges with the same id
(`dep-state-hook-1-effect-effect-1-a`), so the edge list is not
duplicate-free for every fact model; nothing in the builder detects or
skips duplicate ids. -/
theorem buildGraph_duplicate_edge_id_counterexample :
    ¬ (((buildGraphFromMappingResult (some dupDepModel)).edges.map
      (·.id)).Nodup) := by
  decide

/-- Under the canonical-id and duplicate-free hypotheses, no two edges
of the built layout share an id. -/
theorem graph_ids_nodup_of_canonical (m : MappingResult)
    (hH : canonicalIds "hook-" (m.hooks.map (·.id)))
    (hE : canonicalIds "effect-" (m.effects.map (·.id)))
    (hC : canonicalIds "callback-" (m.callbacks.map (·.id)))
    (hJ : canonicalIds "jsx-" (m.jsxNodes.map (·.id)))
    (hEl : ∀ e ∈ m.effects, (e.dependencies.map (·.name)).Nodup ∧
      e.refReads.Nodup ∧ e.setters.Nodup ∧ e.refWrites.Nodup)
    (hCl : ∀ cb ∈ m.callbacks, cb.setters.Nodup)
    (hJl : ∀ r ∈ m.jsxNodes, r.props.Nodup) :
    ((buildGraphFromMappingResult (some m)).edges.map (·.id)).Nodup := by
  rw [buildGraph_some_edges]
  have hsn := stateNodesOf_shape m hH
  have hind := independentNodesOf_shape m hH
  have hjN := jsxNodesOf_shape m hJ
  have hES : ∀ e ∈ m.effects, ∃ i, e.id = "effect-" ++ natStr i :=
    fun e he => canonical_shape _ _ hE e.id (List.mem_map.mpr ⟨e, he, rfl⟩)
  have hCS : ∀ cb ∈ m.callbacks, ∃ i, cb.id = "callback-" ++ natStr i :=
    fun cb hcb => canonical_shape _ _ hC cb.id (List.mem_map.mpr ⟨cb, hcb, rfl⟩)
  have hEnum : (m.effects.map (fun e => numOf 7 e.id)).Nodup := by
    have h2 := canonical_numOf_nodup "effect-" _ hE
    rw [List.map_map] at h2
    exact h2
  have hCnum : (m.callbacks.map (fun cb => numOf 9 cb.id)).Nodup := by
    have h2 := canonical_numOf_nodup "callback-" _ hC
    rw [List.map_map] at h2
    exact h2
  have hRnum : (m.jsxNodes.map (fun r => numOf 4 r.id)).Nodup := by
    have h2 := canonical_numOf_nodup "jsx-" _ hJ
    rw [List.map_map] at h2
    exact h2
  have hJnum := jsxNodesOf_num_nodup m hJ
  have hJp := jsxNodesOf_props m hJl
  have hsig := edges_sig_nodup (stateNodesOf m) (independentNodesOf m)
    (effectNodesOf m) (jsxNodesOf m) m.effects m.callbacks m.jsxNodes
    hsn hind hjN hES hCS hEnum hCnum hJnum hRnum hEl hCl hJp
  rw [show (fun ed : GraphEdge => sigOf ed.id)
      = (sigOf ∘ (fun ed : GraphEdge => ed.id)) from rfl,
    ← List.map_map] at hsig
  exact hsig.of_map

/-- With no hypotheses at all, every endpoint of every built edge names
a node of the built node list. -/
theorem graph_endpoints_all (m : MappingResult) :
    ∀ ed ∈ (buildGraphFromMappingResult (some m)).edges,
      ed.fromEp.nodeId ∈ ((buildGraphFromMappingResult (some m)).nodes.map (·.id)) ∧
      ed.toEp.nodeId ∈ ((buildGraphFromMappingResult (some m)).nodes.map (·.id)) := by
  rw [buildGraph_some_edges, buildGraph_some_nodes]
  intro ed hed
  have hPi : ∀ nd ∈ independentNodesOf m,
      nd.id ∈ (independentNodesOf m ++ stateNodesOf m ++ effectNodesOf m
        ++ jsxNodesOf m).map (·.id) :=
    fun nd h => List.mem_map.mpr ⟨nd, by simp [h], rfl⟩
  have hPs : ∀ nd ∈ stateNodesOf m,
      nd.id ∈ (independentNodesOf m ++ stateNodesOf m ++ effectNodesOf m
        ++ jsxNodesOf m).map (·.id) :=
    fun nd h => List.mem_map.mpr ⟨nd, by simp [h], rfl⟩
  have hPe : ∀ nd ∈ effectNodesOf m,
      nd.id ∈ (independentNodesOf m ++ stateNodesOf m ++ effectNodesOf m
        ++ jsxNodesOf m).map (·.id) :=
    fun nd h => List.mem_map.mpr ⟨nd, by simp [h], rfl⟩
  have hPj : ∀ nd ∈ jsxNodesOf m,
      nd.id ∈ (independentNodesOf m ++ stateNodesOf m ++ effectNodesOf m
        ++ jsxNodesOf m).map (·.id) :=
    fun nd h => List.mem_map.mpr ⟨nd, by simp [h], rfl⟩
  rcases List.mem_append.mp hed with hed | hed
  · rcases List.mem_append.mp hed with hed | hed
    · rcases List.mem_append.mp hed with hed | hed
      · rcases List.mem_flatMap.mp hed with ⟨e, he, hede⟩
        exact effectDepEdges_endpoints _ _ _ e _ hPs hPi hPe ed hede
      · rcases List.mem_flatMap.mp hed with ⟨cb, hcb, hede⟩
        exact callbackMutEdges_endpoints _ _ cb _ hPs hPe ed hede
    · rcases List.mem_flatMap.mp hed with ⟨nd, hnd, hede⟩
      exact jsxPropEdges_endpoints _ _ nd _ hPi hPs (hPj nd hnd) ed hede
  · exact jsxTreeEdges_endpoints _ _ _ hPj ed hed

/-- C3, amended: first, for a fact model whose record ids are the
analyzer's own canonical positional ids (`hook-1`, `hook-2`, …,
`effect-i`, `callback-i`, `jsx-i`) and whose per-record name lists
(dependency names, refReads, setters, refWrites, callback setters and
jsx props) are duplicate-free, the edge list of
`buildGraphFromMappingResult` never contains two edges with the same
id; second, for every fact model with no hypotheses at all, every edge
endpoint's nodeId is the id of a node of the returned node list. -/
theorem buildGraph_edge_ids_unique_endpoints_valid :
    (∀ m : MappingResult,
      canonicalIds "hook-" (m.hooks.map (·.id)) →
      canonicalIds "effect-" (m.effects.map (·.id)) →
      canonicalIds "callback-" (m.callbacks.map (·.id)) →
      canonicalIds "jsx-" (m.jsxNodes.map (·.id)) →
      (∀ e ∈ m.effects, (e.dependencies.map (·.name)).Nodup ∧
        e.refReads.Nodup ∧ e.setters.Nodup ∧ e.refWrites.Nodup) →
      (∀ cb ∈ m.callbacks, cb.setters.Nodup) →
      (∀ r ∈ m.jsxNodes, r.props.Nodup) →
      ((buildGraphFromMappingResult (some m)).edges.map (·.id)).Nodup) ∧
    (∀ m : MappingResult,
      ∀ ed ∈ (buildGraphFromMappingResult (some m)).edges,
        ed.fromEp.nodeId ∈
          ((buildGraphFromMappingResult (some m)).nodes.map (·.id)) ∧
        ed.toEp.nodeId ∈
          ((buildGraphFromMappingResult (some m)).nodes.map (·.id))) :=
  ⟨graph_ids_nodup_of_canonical, graph_endpoints_all⟩

/-- A well-formed fact model exercising every edge family. -/
def wiredModel : MappingResult :=
  { source := "", fileName := none, componentName := some "App",
    hooks := [⟨"hook-1", "count", .useState, .localScope, none, none⟩,
      ⟨"hook-2", "boxRef", .useRef, .localScope, none, none⟩],
    effects := [⟨"effect-1", .useEffect, [⟨"count", false⟩], ["setCount"],
      ["boxRef"], ["boxRef"], none⟩],
    callbacks := [⟨"callback-1", some "onClick", [], ["setCount"], none⟩],
    jsxNodes := [⟨"jsx-1", "div", 0, none, ["count", "boxRef"], ["boxRef"], none⟩,
      ⟨"jsx-2", "span", 1, some "jsx-1", [], [], none⟩],
    exportedComponents := ["App"], defaultExport := some "App",
    errors := [], calledVariableNames := [] }

/-- Witness: both halves of the amended C3 theorem applied to a
concrete well-formed fact model, every hypothesis of the uniqueness
half discharged by evaluation. -/
theorem buildGraph_edge_ids_unique_endpoints_valid_witness :
    ((buildGraphFromMappingResult (some wiredModel)).edges.map (·.id)).Nodup ∧
    ∀ ed ∈ (buildGraphFromMappingResult (some wiredModel)).edges,
      ed.fromEp.nodeId ∈
        ((buildGraphFromMappingResult (some wiredModel)).nodes.map (·.id)) ∧
      ed.toEp.nodeId ∈
        ((buildGraphFromMappingResult (some wiredModel)).nodes.map (·.id)) :=
  ⟨buildGraph_edge_ids_unique_endpoints_valid.1 wiredModel (by decide)
      (by decide) (by decide) (by decide) (by decide) (by decide) (by decide),
    buildGraph_edge_ids_unique_endpoints_valid.2 wiredModel⟩

end RRV
